import Mathlib

/-!
# HLTBitAna: trigger-menu resolution and lookup

A shallow embedding of the two framework plugins of `EventAnalysis/plugins`:

* `TriggerAnalyzer.cc`       (decision / prescale records), namespace `TriggerAnalyzer`;
* `TriggerObjectAnalyzer.cc` (trigger-object records), namespace `TriggerObjectAnalyzer`.

Conventions of the embedding.

* A member function is a pure function from the plugin state (the member data that the
  function reads or writes) and its inputs to an `Outcome`: either `done s` (normal
  return with final state `s`) or `threw f s` (a fault `f` left the function when the
  member data was `s`).
* `std::vector` is `List`; `std::set<std::string>` and `std::map<std::string, T>` are
  lists with unique keys (`setInsert`, `mapSet`, `mapFind`).  The code enumerates two of
  them: `l1tAlgoMap_`, which is supplied by the menu (its list is the enumeration order of
  the map), and `filtersInMenu_`, whose enumeration fills a map keyed by filter name, with
  a result per key that does not depend on the order.
* `size_t` arithmetic is arithmetic of `Nat` modulo `2 ^ 64`; `std::string::npos` is
  `2 ^ 64 - 1`.
* Framework objects that the plugins only query (the configuration provider, the per-event
  products, `TRegexp`) appear through the queries the code makes.  The regular-expression
  test `TString(path).Contains(TRegexp(TString(name)))` is a parameter `rx path name`.
* Values of `float` branches (prescales, kinematics) are only copied by the code; they are
  carried by `Int`, the sentinel being `-1`.  The kinematic values of a trigger object are
  taken at the precision of the `float` branches that receive them.
* The branch `id` is a `std::vector<short>`: an `int` pushed into it is narrowed to 16 bits
  (`toShort`).
* An access `v[i]` with `i` outside of a `std::vector` has no defined behaviour; it is the
  fault `Fault.outOfRange`.
-/

namespace HLTBitAna

/-! ## Faults and outcomes -/

/-- Faults that can leave a member function. -/
inductive Fault where
  /-- Message `"HLT prescale provider failed initialization!"` or `"HLT config provider failed initialization!"` -/
  | initFailed
  /-- Message `"No filter found for " << triggerName` -/
  | noFilterFound (triggerName : String)
  /-- Message `"Trigger object collection not found!"` -/
  | collectionNotFound
  /-- Call of `iEvent.get(token)` on an event that does not hold the product -/
  | productNotFound
  /-- an element access outside of a `std::vector` -/
  | outOfRange
  deriving DecidableEq, Repr

/-- Result of a member function: normal return, or a fault together with the member data
at the point where the fault left the function. -/
inductive Outcome (σ : Type) where
  | done (s : σ)
  | threw (f : Fault) (s : σ)

/-- Member data when control leaves the function. -/
def Outcome.state {σ : Type} : Outcome σ → σ
  | .done s => s
  | .threw _ s => s

/-- The fault that left the function, if any. -/
def Outcome.fault {σ : Type} : Outcome σ → Option Fault
  | .done _ => none
  | .threw f _ => some f

/-! ## `std::string`, `std::set`, `std::map` -/

/-- Embeds `std::string::npos` -/
def npos : Nat := 2 ^ 64 - 1

/-- Search of `p` in the remainder `s` of a string, the remainder starting at position `i`:
first position of an occurrence, `npos` when there is none. -/
def findAt (p : List Char) : List Char → Nat → Nat
  | [], i => if p.isPrefixOf [] then i else npos
  | c :: cs, i => if p.isPrefixOf (c :: cs) then i else findAt p cs (i + 1)

/-- Embeds `s.find(p)` -/
def find (s p : String) : Nat := findAt p.data s.data 0

/-- Search of the last occurrence; `best` is the last occurrence seen so far. -/
def rfindAt (p : List Char) : List Char → Nat → Nat → Nat
  | [], i, best => if p.isPrefixOf [] then i else best
  | c :: cs, i, best => rfindAt p cs (i + 1) (if p.isPrefixOf (c :: cs) then i else best)

/-- Embeds `s.rfind(p)` -/
def rfind (s p : String) : Nat := rfindAt p.data s.data 0 npos

/-- Embeds `s.rfind(p, 0)`: the only admissible occurrence starts at position 0. -/
def rfind0 (s p : String) : Nat := if p.data.isPrefixOf s.data then 0 else npos

/-- Embeds `s.substr(0, n)` -/
def substr0 (s : String) (n : Nat) : String := String.mk (s.data.take n)

/-- Embeds `set.find(k) != set.end()` -/
def setMem (k : String) (s : List String) : Bool := s.contains k

/-- Embeds `set.insert(k)` -/
def setInsert (s : List String) (k : String) : List String :=
  if s.contains k then s else s ++ [k]

/-- Embeds `map.find(k)`: the mapped value, `none` for `map.end()`. -/
def mapFind {β : Type} (m : List (String × β)) (k : String) : Option β :=
  match m with
  | [] => none
  | (k', v) :: rest => if k' == k then some v else mapFind rest k

/-- Embeds `map[k] = v` -/
def mapSet {β : Type} (m : List (String × β)) (k : String) (v : β) : List (String × β) :=
  match m with
  | [] => [(k, v)]
  | (k', v') :: rest => if k' == k then (k, v) :: rest else (k', v') :: mapSet rest k v

/-- Embeds `map[k]` as an rvalue: the mapped value, after insertion of a value-initialised entry
when the key is absent.  Returns the value and the map. -/
def mapIndex {β : Type} (dflt : β) (m : List (String × β)) (k : String) :
    β × List (String × β) :=
  match mapFind m k with
  | some v => (v, m)
  | none => (dflt, mapSet m k dflt)

/-- Embeds `v[i] = x` on a `std::vector`; `none` when `i` is outside of the vector. -/
def vecSet {α : Type} : List α → Nat → α → Option (List α)
  | [], _, _ => none
  | _ :: rest, 0, x => some (x :: rest)
  | y :: rest, i + 1, x => (vecSet rest i x).map (y :: ·)

/-! ## The HLT configuration provider -/

/-- What the plugins query of an `HLTConfigProvider`: the ordered paths with their ordered
module labels, and the EDM type of a module. -/
structure HLTConfigProvider where
  paths : List (String × List String)
  moduleEDMType : String → String

namespace HLTConfigProvider

/-- Embeds `size()`: number of paths. -/
def size (c : HLTConfigProvider) : Nat := c.paths.length

/-- Embeds `triggerNames()` -/
def triggerNames (c : HLTConfigProvider) : List String := c.paths.map Prod.fst

/-- Embeds `triggerIndex(name)`: position of the path, `size()` when there is no such path. -/
def triggerIndex (c : HLTConfigProvider) (name : String) : Nat := c.triggerNames.indexOf name

/-- Embeds `moduleLabels(index)` -/
def moduleLabelsAt (c : HLTConfigProvider) (i : Nat) : List String :=
  match c.paths.get? i with
  | some p => p.2
  | none => []

/-- Embeds `moduleLabels(name)`, which is `moduleLabels(triggerIndex(name))`. -/
def moduleLabels (c : HLTConfigProvider) (name : String) : List String :=
  c.moduleLabelsAt (c.triggerIndex name)

end HLTConfigProvider

/-- The configuration of a default-constructed provider: no path. -/
def emptyConfig : HLTConfigProvider := ⟨[], fun _ => ""⟩

/-- A filtering module: of EDM type `EDFilter` and not the bookkeeping module `hltBoolEnd`
(the negation of the `continue` condition of the filter extraction loop). -/
def isFilteringModule (c : HLTConfigProvider) (module : String) : Bool :=
  !(module == "hltBoolEnd" || c.moduleEDMType module != "EDFilter")

/-- Inner loop of the filter extraction: the filtering modules of one path are inserted. -/
def insertPathFilters (c : HLTConfigProvider) (filters : List String)
    (modules : List String) : List String :=
  modules.foldl
    (fun acc module =>
      if module == "hltBoolEnd" || c.moduleEDMType module != "EDFilter" then acc
      else setInsert acc module)
    filters

/-- The set `filters` of `TriggerObjectAnalyzer::beginRun`: all filtering modules of all
paths of the menu. -/
def extractFilters (c : HLTConfigProvider) : List String :=
  c.triggerNames.foldl (fun acc triggerPath => insertPathFilters c acc (c.moduleLabels triggerPath)) []

/-! ## FilterLocator: the backward scan of `TriggerObjectAnalyzer::beginRun` -/

/-- Body of `for (size_t iMod = modules.size()-1; iMod > 0; iMod--)` from the value `iMod`
on: `none` when `modules[iMod]` is outside of the vector, otherwise the value of
`filterName` after the loop (`""` when the loop ends without a `break`). -/
def scanFrom (filters : List String) (modules : List String) : Nat → Option String
  | 0 => some ""
  | iMod + 1 =>
    match modules.get? (iMod + 1) with
    | none => none
    | some module => if setMem module filters then some module else scanFrom filters modules iMod

/-- The value of `n - 1` computed in `size_t`, for a size `n` (sizes are below `2 ^ 64`):
the subtraction wraps around to `2 ^ 64 - 1` at `n = 0`.  It is `(n + 2 ^ 64 - 1) % 2 ^ 64`
(`sizeMinusOne_eq_mod`). -/
def sizeMinusOne : Nat → Nat
  | 0 => 2 ^ 64 - 1
  | n + 1 => n

/-- The backward scan: `iMod` starts at `modules.size()-1`, computed in `size_t`. -/
def lastFilterScan (filters : List String) (modules : List String) : Option String :=
  scanFrom filters modules (sizeMinusOne modules.length)

/-- The scan followed by `if (filterName=="") throw ...`: the located filter or the fault. -/
def locateFilter (filters : List String) (modules : List String) (triggerName : String) :
    Except Fault String :=
  match lastFilterScan filters modules with
  | none => .error Fault.outOfRange
  | some filterName =>
    if filterName == "" then .error (Fault.noFilterFound triggerName) else .ok filterName

/-- Embeds `v.resize(n)` with value-initialised new elements. -/
def vecResize {α : Type} (dflt : α) (v : List α) (n : Nat) : List α :=
  v.take n ++ List.replicate (n - v.length) dflt

/-- Generation of the template list from the menu (the loop shared by both plugins):
paths without `"_v"` are passed over, of the others the prefix up to and including the
first `"_v"` is appended. -/
def appendBaseNames (names : List String) (triggerPaths : List String) : List String :=
  triggerPaths.foldl
    (fun acc triggerPath =>
      if rfind triggerPath "_v" == npos then acc
      else acc ++ [substr0 triggerPath ((find triggerPath "_v" + 2) % 2 ^ 64)])
    names

/-! ## TriggerObjectAnalyzer -/

namespace TriggerObjectAnalyzer

/-- A trigger object as the plugin reads it: `pdgId()` (an `int`), `pt()`, `eta()`, `phi()`,
`mass()` (as `float`, the element type of the vectors that receive them) and, for a
stand-alone object, `filterLabels()`. -/
structure TriggerObject where
  pdgId : Int
  pt : Int
  eta : Int
  phi : Int
  mass : Int
  filterLabels : List String
  deriving DecidableEq, Repr

/-- The record `struct OBJ` of one template (its output tree left out): `id` is a
`std::vector<short>`, the other four are `std::vector<float>`. -/
structure OBJ where
  id : List Int
  pt : List Int
  eta : List Int
  phi : List Int
  mass : List Int
  deriving DecidableEq, Repr

/-- A value-initialised record, also the record after the five `clear()` calls. -/
def OBJ.empty : OBJ := ⟨[], [], [], [], []⟩

/-- Conversion of an `int` to `short`, as `trg.id.push_back(triggerObject.pdgId())`
performs it: the value modulo `2 ^ 16 = 65536` in the range `-32768 .. 32767`. -/
def toShort (x : Int) : Int := (x + 32768) % 65536 - 32768

/-- The five `push_back` calls for one trigger object; the `int` `pdgId()` enters the
`std::vector<short>` narrowed to `short`. -/
def OBJ.push (trg : OBJ) (o : TriggerObject) : OBJ :=
  ⟨trg.id ++ [toShort o.pdgId], trg.pt ++ [o.pt], trg.eta ++ [o.eta], trg.phi ++ [o.phi],
    trg.mass ++ [o.mass]⟩

/-- The record holding exactly the given objects, in their order. -/
def OBJ.ofObjects (objs : List TriggerObject) : OBJ :=
  ⟨objs.map (·.pdgId), objs.map (·.pt), objs.map (·.eta), objs.map (·.phi), objs.map (·.mass)⟩

/-- The filter-keyed summary `trigger::TriggerEvent`, through the queries made of it. -/
structure TriggerEvent where
  sizeFilters : Nat
  filterIndex : String → Nat
  filterKeys : Nat → List Nat
  getObject : Nat → TriggerObject

/-- The event products read by `analyze`; `none` is a product that the event does not hold.
`triggerResults` is given by its `accept(index)`. -/
structure Event where
  triggerResults : Option (Nat → Bool)
  triggerEvent : Option TriggerEvent
  triggerObjects : Option (List TriggerObject)

/-- Member data of the plugin. -/
structure State where
  triggerNames_ : List String
  hltConfig_ : HLTConfigProvider
  filtersInMenu_ : List String
  triggerNamesInMenu_ : List (String × String)
  triggerFiltersInMenu_ : List (String × String)
  triggerInfo_ : List OBJ

/-- Member data after construction with the configured `triggerNames`. -/
def State.init (triggerNames : List String) : State :=
  ⟨triggerNames, emptyConfig, [], [], [], []⟩

/-- The per-event map from filter name to objects. -/
abbrev FilterMap := List (String × List TriggerObject)

/-- Embeds `map[filter].emplace_back(object)` -/
def emplaceBack (m : FilterMap) (filter : String) (o : TriggerObject) : FilterMap :=
  match mapFind m filter with
  | some objs => mapSet m filter (objs ++ [o])
  | none => mapSet m filter [o]

/-- First shape (filter-keyed summary): for each filter of `filtersInMenu_` known to the
summary, the objects of its keys. -/
def mapFromTriggerEvent (filtersInMenu : List String) (te : TriggerEvent) : FilterMap :=
  filtersInMenu.foldl
    (fun m filter =>
      let filterIndex := te.filterIndex filter
      if filterIndex ≥ te.sizeFilters then m
      else (te.filterKeys filterIndex).foldl (fun m key => emplaceBack m filter (te.getObject key)) m)
    []

/-- Second shape (object list): each object under each of its filter labels. -/
def mapFromTriggerObjects (objs : List TriggerObject) : FilterMap :=
  objs.foldl
    (fun m triggerObject =>
      triggerObject.filterLabels.foldl (fun m filter => emplaceBack m filter triggerObject) m)
    []

/-- The `if / else if / else throw` cascade that builds `triggerObjectsFilterMap`; `none`
is the `throw`. -/
def buildFilterMap (s : State) (ev : Event) : Option FilterMap :=
  match ev.triggerEvent with
  | some te => some (mapFromTriggerEvent s.filtersInMenu_ te)
  | none =>
    match ev.triggerObjects with
    | some objs => some (mapFromTriggerObjects objs)
    | none => none

/-- Lines "check if filter has trigger objects" and "add trigger objects" for template `i`. -/
def addObjects (m : FilterMap) (s : State) (i : Nat) (filterName : String) : Outcome State :=
  match mapFind m filterName with
  | none => .done s
  | some objs =>
    match s.triggerInfo_.get? i with
    | none => .threw Fault.outOfRange s
    | some trg =>
      .done { s with triggerInfo_ := s.triggerInfo_.set i (objs.foldl OBJ.push trg) }

/-- One iteration of the loop "fill trigger information". -/
def fillOne (accept : Nat → Bool) (m : FilterMap) (s : State) (i : Nat)
    (triggerName : String) : Outcome State :=
  if rfind0 triggerName "hlt" == 0 then
    addObjects m s i triggerName
  else
    match mapFind s.triggerNamesInMenu_ triggerName with
    | some _ =>
      let (filterName, filtersMap) := mapIndex "" s.triggerFiltersInMenu_ triggerName
      let (triggerNameInMenu, namesMap) := mapIndex "" s.triggerNamesInMenu_ triggerName
      let s1 := { s with triggerFiltersInMenu_ := filtersMap, triggerNamesInMenu_ := namesMap }
      let triggerIndex := s1.hltConfig_.triggerIndex triggerNameInMenu
      if !accept triggerIndex then .done s1 else addObjects m s1 i filterName
    | none => addObjects m s i ""

/-- The loop "fill trigger information" over the templates from index `i` on. -/
def fillLoop (accept : Nat → Bool) (m : FilterMap) : List String → Nat → State → Outcome State
  | [], _, s => .done s
  | triggerName :: rest, i, s =>
    match fillOne accept m s i triggerName with
    | .done s1 => fillLoop accept m rest (i + 1) s1
    | .threw f s1 => .threw f s1

/-- Embeds `TriggerObjectAnalyzer::analyze`. -/
def analyze (s : State) (ev : Event) : Outcome State :=
  if s.hltConfig_.size ≤ 0 then .done s
  else
    match ev.triggerResults with
    | none => .threw Fault.productNotFound s
    | some accept =>
      match buildFilterMap s ev with
      | none => .threw Fault.collectionNotFound s
      | some m =>
        let s1 := { s with triggerInfo_ := s.triggerInfo_.map (fun _ => OBJ.empty) }
        fillLoop accept m s1.triggerNames_ 0 s1

/-- What `beginRun` receives from `hltConfig_.init`: its result, the flag `hltMenuChanged`
it sets, and the configuration that the provider loads when it reports a change (a provider
that reports no change keeps the configuration it holds). -/
structure RunStart where
  initOk : Bool
  hltMenuChanged : Bool
  menu : HLTConfigProvider

/-- The path loop of "check trigger paths" for one template, from the given paths on. -/
def matchPaths (rx : String → String → Bool) (c : HLTConfigProvider) (filters : List String)
    (triggerName : String) : List String → State → Outcome State
  | [], s => .done s
  | triggerPath :: rest, s =>
    if !rx triggerPath triggerName then matchPaths rx c filters triggerName rest s
    else
      let triggerIndex := c.triggerIndex triggerPath
      let modules := c.moduleLabelsAt triggerIndex
      match locateFilter filters modules triggerName with
      | .error f => .threw f s
      | .ok filterName =>
        .done { s with
          filtersInMenu_ := setInsert s.filtersInMenu_ filterName
          triggerNamesInMenu_ := mapSet s.triggerNamesInMenu_ triggerName triggerPath
          triggerFiltersInMenu_ := mapSet s.triggerFiltersInMenu_ triggerName filterName }

/-- One iteration of the loop "find triggers in menu". -/
def resolveOne (rx : String → String → Bool) (c : HLTConfigProvider) (filters : List String)
    (s : State) (triggerName : String) : Outcome State :=
  if rfind0 triggerName "hlt" == 0 then
    if setMem triggerName filters then
      .done { s with filtersInMenu_ := setInsert s.filtersInMenu_ triggerName }
    else .done s
  else if rfind triggerName "_v" != npos then
    matchPaths rx c filters triggerName c.triggerNames s
  else .done s

/-- The loop "find triggers in menu". -/
def resolveLoop (rx : String → String → Bool) (c : HLTConfigProvider) (filters : List String) :
    List String → State → Outcome State
  | [], s => .done s
  | triggerName :: rest, s =>
    match resolveOne rx c filters s triggerName with
    | .done s1 => resolveLoop rx c filters rest s1
    | .threw f s1 => .threw f s1

/-- Block "initialize trigger information". -/
def initInfo (s : State) : State :=
  if s.triggerInfo_.isEmpty then
    let names :=
      if s.triggerNames_.isEmpty then appendBaseNames s.triggerNames_ s.hltConfig_.triggerNames
      else s.triggerNames_
    { s with triggerNames_ := names, triggerInfo_ := vecResize OBJ.empty s.triggerInfo_ names.length }
  else s

/-- Embeds `TriggerObjectAnalyzer::beginRun`. -/
def beginRun (rx : String → String → Bool) (s : State) (r : RunStart) : Outcome State :=
  if !r.initOk then .threw Fault.initFailed s
  else if !r.hltMenuChanged then .done s
  else
    let s0 := { s with hltConfig_ := r.menu }
    let filters := extractFilters s0.hltConfig_
    let s1 := initInfo s0
    let s2 := { s1 with filtersInMenu_ := [], triggerNamesInMenu_ := [], triggerFiltersInMenu_ := [] }
    resolveLoop rx s2.hltConfig_ filters s2.triggerNames_ s2

/-- What the framework hands to the plugin: a run start or an event. -/
inductive Input where
  | runStart (r : RunStart)
  | event (ev : Event)

/-- One call of the framework. -/
def step (rx : String → String → Bool) (s : State) : Input → Outcome State
  | .runStart r => beginRun rx s r
  | .event ev => analyze s ev

/-- A sequence of calls; processing ends at the first fault. -/
def run (rx : String → String → Bool) : State → List Input → Outcome State
  | s, [] => .done s
  | s, x :: rest =>
    match step rx s x with
    | .done s1 => run rx s1 rest
    | .threw f s1 => .threw f s1

end TriggerObjectAnalyzer

/-! ## TriggerAnalyzer -/

namespace TriggerAnalyzer

/-- An `L1TUtmAlgorithm` through `getName()` and `getIndex()`. -/
structure L1TUtmAlgorithm where
  name : String
  index : Nat
  deriving DecidableEq, Repr

/-- A value-initialised algorithm. -/
def L1TUtmAlgorithm.dflt : L1TUtmAlgorithm := ⟨"", 0⟩

/-- The product `edm::TriggerResults` through `size()` and `accept(index)`. -/
structure TriggerResults where
  size : Nat
  accept : Nat → Bool

/-- The `l1t::L1TGlobalUtil` of the event through `valid()`, the size of
`decisionsFinal()`, and the `second` member of `decisionsFinal()[i]` and `prescales()[i]`. -/
structure L1TGlobalUtil where
  valid : Bool
  decisionsFinalSize : Nat
  decisionsFinal : Nat → Bool
  prescales : Nat → Int

/-- The per-event data read by `analyze`: the handle of the trigger results (`none` when
not valid), the prescale column `prescaleSet(iEvent, iSetup)`, the prescale of a path in a
column `prescaleValue<double>(pCol, name)`, and the L1T utility. -/
structure Event where
  hltResults : Option TriggerResults
  pCol : Int
  prescaleValue : Int → String → Int
  l1tGlobalUtil : L1TGlobalUtil

/-- Member data of the plugin (`hltConfig` is `hltPrescaleProvider_.hltConfigProvider()`). -/
structure State where
  hltNamesInMenu_ : List (String × String)
  l1TriggersInMenu_ : List String
  l1tAlgoMap_ : List (String × L1TUtmAlgorithm)
  hltInfo_ : List (Bool × Int)
  l1tInfo_ : List (Bool × Int)
  hltNames_ : List String
  l1tNames_ : List String
  hltConfig : HLTConfigProvider

/-- Member data after construction with `hltDummyBranches` and `l1tDummyBranches`. -/
def State.init (hltNames l1tNames : List String) : State :=
  ⟨[], [], [], [], [], hltNames, l1tNames, emptyConfig⟩

/-- One iteration of the loop "fill HLT information". -/
def fillHltOne (ev : Event) (hltResults : TriggerResults) (s : State) (i : Nat)
    (hltName : String) : Outcome State :=
  match mapFind s.hltNamesInMenu_ hltName with
  | none => .done s
  | some hltNameInMenu =>
    let hltIndex := s.hltConfig.triggerIndex hltNameInMenu
    match vecSet s.hltInfo_ i
        (hltResults.accept hltIndex,
          if ev.pCol ≥ 0 then ev.prescaleValue ev.pCol hltNameInMenu else -1) with
    | none => .threw Fault.outOfRange s
    | some info => .done { s with hltInfo_ := info }

/-- The loop "fill HLT information" over the templates from index `i` on. -/
def fillHltLoop (ev : Event) (hltResults : TriggerResults) :
    List String → Nat → State → Outcome State
  | [], _, s => .done s
  | hltName :: rest, i, s =>
    match fillHltOne ev hltResults s i hltName with
    | .done s1 => fillHltLoop ev hltResults rest (i + 1) s1
    | .threw f s1 => .threw f s1

/-- One iteration of the loop "fill L1T information". -/
def fillL1tOne (ev : Event) (s : State) (i : Nat) (l1tName : String) : Outcome State :=
  if !setMem l1tName s.l1TriggersInMenu_ then .done s
  else
    let (algo, algoMap) := mapIndex L1TUtmAlgorithm.dflt s.l1tAlgoMap_ l1tName
    let s1 := { s with l1tAlgoMap_ := algoMap }
    let l1tIndex := algo.index
    match vecSet s1.l1tInfo_ i
        (ev.l1tGlobalUtil.decisionsFinal l1tIndex,
          if ev.pCol ≥ 0 then ev.l1tGlobalUtil.prescales l1tIndex else -1) with
    | none => .threw Fault.outOfRange s1
    | some info => .done { s1 with l1tInfo_ := info }

/-- The loop "fill L1T information" over the templates from index `i` on. -/
def fillL1tLoop (ev : Event) : List String → Nat → State → Outcome State
  | [], _, s => .done s
  | l1tName :: rest, i, s =>
    match fillL1tOne ev s i l1tName with
    | .done s1 => fillL1tLoop ev rest (i + 1) s1
    | .threw f s1 => .threw f s1

/-- Blocks "clear HLT information" and "fill HLT information". -/
def analyzeHlt (s : State) (ev : Event) : Outcome State :=
  let s1 := { s with hltInfo_ := s.hltInfo_.map (fun _ => (false, -1)) }
  match ev.hltResults with
  | some hltResults =>
    if hltResults.size > 0 then fillHltLoop ev hltResults s1.hltNames_ 0 s1 else .done s1
  | none => .done s1

/-- Blocks "clear L1T information" and "fill L1T information". -/
def analyzeL1t (s : State) (ev : Event) : Outcome State :=
  let s1 := { s with l1tInfo_ := s.l1tInfo_.map (fun _ => (false, -1)) }
  if ev.l1tGlobalUtil.valid && !(ev.l1tGlobalUtil.decisionsFinalSize == 0) then
    fillL1tLoop ev s1.l1tNames_ 0 s1
  else .done s1

/-- Embeds `TriggerAnalyzer::analyze`. -/
def analyze (s : State) (ev : Event) : Outcome State :=
  match analyzeHlt s ev with
  | .done s1 => analyzeL1t s1 ev
  | .threw f s1 => .threw f s1

/-- What `beginRun` receives: the result of `hltPrescaleProvider_.init`, the flag
`hltMenuChanged` it sets, the HLT configuration that the provider loads when it reports a
change (a provider that reports no change keeps the configuration it holds), and the
algorithm map of the L1T menu (in the enumeration order of the map). -/
structure RunStart where
  initOk : Bool
  hltMenuChanged : Bool
  hltConfig : HLTConfigProvider
  l1tAlgoMap : List (String × L1TUtmAlgorithm)

/-- Block `if (hltInfo_.empty())`. -/
def initHlt (s : State) (hltPaths : List String) : State :=
  if s.hltInfo_.isEmpty then
    let names :=
      if !s.hltNames_.isEmpty && s.hltNames_.get? 0 == some "@ALL" then
        appendBaseNames [] hltPaths
      else s.hltNames_
    { s with hltNames_ := names, hltInfo_ := vecResize (false, 0) s.hltInfo_ names.length }
  else s

/-- The path loop for one template: the first path that matches is entered and the loop is
left. -/
def matchHltPaths (rx : String → String → Bool) (hltName : String) :
    List String → List (String × String) → List (String × String)
  | [], m => m
  | hltPath :: rest, m =>
    if !rx hltPath hltName then matchHltPaths rx hltName rest m
    else mapSet m hltName hltPath

/-- The loop over `hltNames_` that fills `hltNamesInMenu_` (after its `clear()`). -/
def resolveHlt (rx : String → String → Bool) (hltPaths : List String)
    (hltNames : List String) : List (String × String) :=
  hltNames.foldl (fun m hltName => matchHltPaths rx hltName hltPaths m) []

/-- Block `if (l1tInfo_.empty())`. -/
def initL1t (s : State) : State :=
  if s.l1tInfo_.isEmpty then
    let names :=
      if !s.l1tNames_.isEmpty && s.l1tNames_.get? 0 == some "@ALL" then
        s.l1tAlgoMap_.foldl (fun acc l1tAlgo => acc ++ [l1tAlgo.2.name]) []
      else s.l1tNames_
    { s with l1tNames_ := names, l1tInfo_ := vecResize (false, 0) s.l1tInfo_ names.length }
  else s

/-- The loop over `l1tNames_` that fills `l1TriggersInMenu_` (after its `clear()`). -/
def resolveL1t (algoMap : List (String × L1TUtmAlgorithm)) (l1tNames : List String) :
    List String :=
  l1tNames.foldl
    (fun acc l1tName => if (mapFind algoMap l1tName).isSome then setInsert acc l1tName else acc)
    []

/-- Embeds `TriggerAnalyzer::beginRun`. -/
def beginRun (rx : String → String → Bool) (s : State) (r : RunStart) : Outcome State :=
  if !r.initOk then .threw Fault.initFailed s
  else if !r.hltMenuChanged then .done s
  else
    let s0 := { s with hltConfig := r.hltConfig }
    let hltPaths := s0.hltConfig.triggerNames
    let s1 := initHlt s0 hltPaths
    let s2 := { s1 with hltNamesInMenu_ := resolveHlt rx hltPaths s1.hltNames_ }
    let s3 := { s2 with l1tAlgoMap_ := r.l1tAlgoMap }
    let s4 := initL1t s3
    .done { s4 with l1TriggersInMenu_ := resolveL1t s4.l1tAlgoMap_ s4.l1tNames_ }

/-- What the framework hands to the plugin: a run start or an event. -/
inductive Input where
  | runStart (r : RunStart)
  | event (ev : Event)

/-- One call of the framework. -/
def step (rx : String → String → Bool) (s : State) : Input → Outcome State
  | .runStart r => beginRun rx s r
  | .event ev => analyze s ev

/-- A sequence of calls; processing ends at the first fault. -/
def run (rx : String → String → Bool) : State → List Input → Outcome State
  | s, [] => .done s
  | s, x :: rest =>
    match step rx s x with
    | .done s1 => run rx s1 rest
    | .threw f s1 => .threw f s1

end TriggerAnalyzer

/-! ## Concrete menus, configurations and events -/

namespace Examples

/-- Matching of `TRegexp` for a pattern without metacharacters: substring search. -/
def substringRx (path name : String) : Bool := find path name != npos

/-- Module types of the example menus: `nonFilterX` is a producer, every other module an
`EDFilter`. -/
def edmType (module : String) : String :=
  if module == "nonFilterX" then "EDProducer" else "EDFilter"

/-- One path whose only filtering module is its first module. -/
def menuFilterFirst : HLTConfigProvider :=
  ⟨[("HLT_Mu20_v3", ["filterA", "nonFilterX"])], edmType⟩

/-- One path with the module sequence `[filterA, nonFilterX, filterB, hltBoolEnd]`. -/
def menuMu20 : HLTConfigProvider :=
  ⟨[("HLT_Mu20_v3", ["filterA", "nonFilterX", "filterB", "hltBoolEnd"])], edmType⟩

/-- Two versions of one path and a path without version suffix. -/
def menuTwoVersions : HLTConfigProvider :=
  ⟨[("HLT_Mu20_v3", ["filterA", "nonFilterX", "filterB", "hltBoolEnd"]),
    ("HLT_Mu20_v4", ["filterA", "filterB", "hltBoolEnd"]),
    ("HLTriggerFinalPath", ["filterA", "hltBoolEnd"])], edmType⟩

/-- A menu without paths. -/
def menuNoPath : HLTConfigProvider := ⟨[], edmType⟩

/-- A muon-like trigger object that carries the filter labels `filterB` and `hltFoo`. -/
def objX : TriggerObjectAnalyzer.TriggerObject := ⟨13, 25, 1, 2, 0, ["filterB", "hltFoo"]⟩

/-- An event with trigger results (every path accepted) and none of the two object sources. -/
def evNoSource : TriggerObjectAnalyzer.Event := ⟨some (fun _ => true), none, none⟩

/-- An event without any product. -/
def evNoProduct : TriggerObjectAnalyzer.Event := ⟨none, none, none⟩

/-- An event whose only object source is the object list `[objX]`; every path accepted. -/
def evObjectList : TriggerObjectAnalyzer.Event := ⟨some (fun _ => true), none, some [objX]⟩

/-- A run start with successful initialisation and a changed menu. -/
def runChanged (menu : HLTConfigProvider) : TriggerObjectAnalyzer.RunStart := ⟨true, true, menu⟩

/-- A run start with successful initialisation and an unchanged menu. -/
def runUnchanged (menu : HLTConfigProvider) : TriggerObjectAnalyzer.RunStart := ⟨true, false, menu⟩

/-- An L1T algorithm map with two algorithms. -/
def l1tMap : List (String × TriggerAnalyzer.L1TUtmAlgorithm) :=
  [("L1_SingleMu3", ⟨"L1_SingleMu3", 0⟩), ("L1_ZeroBias", ⟨"L1_ZeroBias", 5⟩)]

/-- A run start of the decision plugin with a changed menu. -/
def runChangedA (menu : HLTConfigProvider) : TriggerAnalyzer.RunStart := ⟨true, true, menu, l1tMap⟩

/-- A run start of the decision plugin with an unchanged menu. -/
def runUnchangedA (menu : HLTConfigProvider) : TriggerAnalyzer.RunStart := ⟨true, false, menu, l1tMap⟩

/-- An event of the decision plugin in which every path and algorithm fired, prescale 7
(HLT) and 9 (L1T). -/
def evAllFired : TriggerAnalyzer.Event :=
  ⟨some ⟨3, fun _ => true⟩, 0, fun _ _ => 7, ⟨true, 6, fun _ => true, fun _ => 9⟩⟩

end Examples

/-! ## Predicates used in the statements -/

namespace TriggerObjectAnalyzer

/-- The record `trg` after the objects that the map holds under `filterName` are appended
(unchanged when the map has no entry). -/
def withObjects (m : FilterMap) (filterName : String) (trg : OBJ) : OBJ :=
  match mapFind m filterName with
  | none => trg
  | some objs => objs.foldl OBJ.push trg

/-- Relation of the member data `s1` at a later point of an event to the member data `s`
at an earlier point: templates, configuration and resolved names are the same, entries of
the filter table persist, and the record vector keeps its length. -/
def Frame (s s1 : State) : Prop :=
  s1.triggerNames_ = s.triggerNames_
  ∧ s1.hltConfig_ = s.hltConfig_
  ∧ s1.filtersInMenu_ = s.filtersInMenu_
  ∧ s1.triggerNamesInMenu_ = s.triggerNamesInMenu_
  ∧ (∀ k v, mapFind s.triggerFiltersInMenu_ k = some v → mapFind s1.triggerFiltersInMenu_ k = some v)
  ∧ s1.triggerInfo_.length = s.triggerInfo_.length

/-- Every entry of the resolved-name table belongs to a path template (no `hlt` prefix),
names a path of the configuration `c`, and has a companion entry in the filter table. -/
def EntriesOK (c : HLTConfigProvider) (s : State) : Prop :=
  ∀ t P, mapFind s.triggerNamesInMenu_ t = some P →
    rfind0 t "hlt" ≠ 0 ∧ P ∈ c.triggerNames ∧ ∃ F, mapFind s.triggerFiltersInMenu_ t = some F

/-- Every member of `filtersInMenu_` is a non-empty name of the filter set of the
configuration. -/
def FiltersOK (s : State) : Prop :=
  ∀ f, setMem f s.filtersInMenu_ = true →
    f ≠ "" ∧ setMem f (extractFilters s.hltConfig_) = true

/-- Invariant of the member data over the life of the plugin: the record vector is as long
as the template list, or no rebuild has taken place yet; and the resolved-name table is
consistent with the configuration. -/
def Inv (s : State) : Prop :=
  (s.triggerInfo_.length = s.triggerNames_.length
    ∨ (s.triggerInfo_ = [] ∧ s.hltConfig_.size = 0))
  ∧ EntriesOK s.hltConfig_ s

end TriggerObjectAnalyzer

namespace TriggerAnalyzer

/-- Relation of the member data `s1` at a later point to the member data `s` at an
earlier point between two rebuilds: template lists and resolved tables of both tiers are
the same and the record vectors keep their lengths. -/
def Frame (s s1 : State) : Prop :=
  s1.hltNames_ = s.hltNames_
  ∧ s1.hltNamesInMenu_ = s.hltNamesInMenu_
  ∧ s1.hltInfo_.length = s.hltInfo_.length
  ∧ s1.l1tNames_ = s.l1tNames_
  ∧ s1.l1TriggersInMenu_ = s.l1TriggersInMenu_
  ∧ s1.l1tInfo_.length = s.l1tInfo_.length

/-- Both record vectors are as long as their template lists. -/
def Sized (s : State) : Prop :=
  s.hltInfo_.length = s.hltNames_.length ∧ s.l1tInfo_.length = s.l1tNames_.length

/-- Invariant of the member data over the life of the plugin, per tier: the record vector
is as long as the template list, or the record vector and the resolved table are both
empty (no rebuild yet). -/
def Inv (s : State) : Prop :=
  (s.hltInfo_.length = s.hltNames_.length ∨ (s.hltInfo_ = [] ∧ s.hltNamesInMenu_ = []))
  ∧ (s.l1tInfo_.length = s.l1tNames_.length ∨ (s.l1tInfo_ = [] ∧ s.l1TriggersInMenu_ = []))

/-- A call that is not a rebuild: an event, or a run start with successful initialisation
and no menu change. -/
def noRebuild : Input → Bool
  | .event _ => true
  | .runStart r => r.initOk && !r.hltMenuChanged

end TriggerAnalyzer

/-! ## Lemmas on the containers -/

theorem mapFind_mapSet {β : Type} (m : List (String × β)) (k k' : String) (v : β) :
    mapFind (mapSet m k v) k' = if k = k' then some v else mapFind m k' := by
  induction m with
  | nil => simp [mapSet, mapFind]
  | cons hd tl ih =>
    obtain ⟨a, b⟩ := hd
    by_cases h : a = k
    · subst h
      by_cases h' : a = k' <;> simp [mapSet, mapFind, h']
    · by_cases h' : a = k'
      · subst h'
        simp [mapSet, mapFind, h, Ne.symm h]
      · simp [mapSet, mapFind, h, h', ih]

theorem mapFind_mapSet_self {β : Type} (m : List (String × β)) (k : String) (v : β) :
    mapFind (mapSet m k v) k = some v := by
  simp [mapFind_mapSet]

theorem setMem_setInsert (s : List String) (k k' : String) :
    setMem k' (setInsert s k) = (setMem k' s || k' == k) := by
  unfold setInsert setMem
  by_cases h : s.contains k = true
  · rw [if_pos h]
    by_cases h' : k' = k
    · subst h'; simpa using h
    · simp [h']
  · rw [if_neg h]
    by_cases h' : k' = k <;> simp [h']

theorem vecSet_length {α : Type} (v : List α) (i : Nat) (x : α) (w : List α)
    (h : vecSet v i x = some w) : w.length = v.length := by
  induction v generalizing i w with
  | nil => simp [vecSet] at h
  | cons y rest ih =>
    cases i with
    | zero => simp [vecSet] at h; subst h; simp
    | succ i =>
      simp only [vecSet, Option.map_eq_some'] at h
      obtain ⟨w', hw', rfl⟩ := h
      simp [ih i w' hw']

theorem vecSet_isSome {α : Type} (v : List α) (i : Nat) (x : α) (h : i < v.length) :
    ∃ w, vecSet v i x = some w := by
  induction v generalizing i with
  | nil => simp at h
  | cons y rest ih =>
    cases i with
    | zero => exact ⟨_, rfl⟩
    | succ i =>
      obtain ⟨w, hw⟩ := ih i (by simpa using h)
      exact ⟨y :: w, by simp [vecSet, hw]⟩

theorem vecSet_get {α : Type} (v : List α) (i j : Nat) (x : α) (w : List α)
    (h : vecSet v i x = some w) : w.get? j = if j = i then some x else v.get? j := by
  induction v generalizing i j w with
  | nil => simp [vecSet] at h
  | cons y rest ih =>
    cases i with
    | zero =>
      simp [vecSet] at h; subst h
      cases j <;> simp
    | succ i =>
      simp only [vecSet, Option.map_eq_some'] at h
      obtain ⟨w', hw', rfl⟩ := h
      cases j with
      | zero => simp
      | succ j => simpa using ih i j w' hw'

/-! ## FilterLocator -/

theorem scanFrom_eq (filters modules : List String) (k : Nat) (h : k < modules.length) :
    scanFrom filters modules k
      = some (((modules.take (k + 1)).tail.reverse.find? (fun m => setMem m filters)).getD "") := by
  induction k with
  | zero =>
    cases modules with
    | nil => simp at h
    | cons a rest => simp [scanFrom]
  | succ k ih =>
    have hk : k < modules.length := by omega
    have hget : modules[k + 1]? = some modules[k + 1] := List.getElem?_eq_getElem h
    have htake : modules.take (k + 1 + 1) = modules.take (k + 1) ++ [modules[k + 1]] := by
      rw [List.take_succ, hget]; rfl
    have hlen : (modules.take (k + 1)).length = k + 1 :=
      List.length_take_of_le (by omega)
    have htail : (modules.take (k + 1 + 1)).tail
        = (modules.take (k + 1)).tail ++ [modules[k + 1]] := by
      rw [htake]
      cases hm : modules.take (k + 1) with
      | nil => rw [hm] at hlen; simp at hlen
      | cons a rest => simp
    rw [htail]
    by_cases hf : setMem modules[k + 1] filters = true
    · simp [scanFrom, hget, hf]
    · simp [scanFrom, hget, hf]
      simpa using ih hk

theorem sizeMinusOne_eq_mod (n : Nat) (h : n < 2 ^ 64) :
    sizeMinusOne n = (n + 2 ^ 64 - 1) % 2 ^ 64 := by
  cases n with
  | zero => decide
  | succ k =>
    have e : k + 1 + 2 ^ 64 - 1 = k + 2 ^ 64 := by omega
    rw [e, Nat.add_mod_right, Nat.mod_eq_of_lt (by omega)]
    rfl

/-- What the backward scan computes on a non-empty module sequence: the last module that
belongs to `filters` among the modules at positions `1, 2, ...`; position `0` is never
examined.  The value `""` stands for no such module. -/
theorem lastFilterScan_eq (filters modules : List String) (h0 : 0 < modules.length) :
    lastFilterScan filters modules
      = some ((modules.tail.reverse.find? (fun m => setMem m filters)).getD "") := by
  unfold lastFilterScan
  have hk : sizeMinusOne modules.length = modules.length - 1 := by
    cases hl : modules.length with
    | zero => rw [hl] at h0; exact absurd h0 (by decide)
    | succ k => rfl
  rw [hk, scanFrom_eq filters modules (modules.length - 1) (by omega)]
  have : modules.length - 1 + 1 = modules.length := by omega
  rw [this, List.take_length]

/-- On the empty module sequence the scan starts at `modules[2 ^ 64 - 1]`. -/
theorem lastFilterScan_nil (filters : List String) : lastFilterScan filters [] = none := by
  unfold lastFilterScan
  have : sizeMinusOne ([] : List String).length = (2 ^ 64 - 2) + 1 := by decide
  rw [this]
  simp [scanFrom]

theorem setMem_insertPathFilters (c : HLTConfigProvider) (acc modules : List String)
    (m : String) :
    setMem m (insertPathFilters c acc modules)
      = (setMem m acc || (decide (m ∈ modules) && isFilteringModule c m)) := by
  unfold insertPathFilters
  induction modules generalizing acc with
  | nil => simp
  | cons a rest ih =>
    rw [List.foldl_cons, ih]
    by_cases ha : (a == "hltBoolEnd" || c.moduleEDMType a != "EDFilter") = true
    · rw [if_pos ha]
      by_cases hm : m = a
      · subst hm
        have : isFilteringModule c m = false := by simp [isFilteringModule, ha]
        simp [this]
      · simp [hm]
    · rw [if_neg ha, setMem_setInsert]
      by_cases hm : m = a
      · subst hm
        have : isFilteringModule c m = true := by
          simp only [Bool.not_eq_true] at ha
          simp [isFilteringModule, ha]
        simp [this]
      · have hb : (m == a) = false := by simpa using hm
        simp [hm, hb]

/-- The set `filters` holds exactly the filtering modules of the paths of the menu. -/
theorem setMem_extractFilters (c : HLTConfigProvider) (m : String) :
    setMem m (extractFilters c) = true
      ↔ ∃ p ∈ c.triggerNames, m ∈ c.moduleLabels p ∧ isFilteringModule c m = true := by
  have hfold : ∀ (names acc : List String),
      setMem m (names.foldl
          (fun acc triggerPath => insertPathFilters c acc (c.moduleLabels triggerPath)) acc) = true
        ↔ (setMem m acc = true
            ∨ ∃ p ∈ names, m ∈ c.moduleLabels p ∧ isFilteringModule c m = true) := by
    intro names
    induction names with
    | nil => intro acc; simp
    | cons a rest ih =>
      intro acc
      rw [List.foldl_cons, ih, setMem_insertPathFilters]
      simp only [Bool.or_eq_true, Bool.and_eq_true, decide_eq_true_eq, List.mem_cons,
        exists_eq_or_imp]
      tauto
  unfold extractFilters
  rw [hfold]
  simp [setMem]

/-- FilterLocator on the module sequence of a path of the menu, the sequence being
non-empty: the scan yields the last filtering module among the modules at positions
`1, 2, ...` (`""` when there is none). -/
theorem lastFilterScan_of_path (c : HLTConfigProvider) (p : String) (hp : p ∈ c.triggerNames)
    (h0 : 0 < (c.moduleLabels p).length) :
    lastFilterScan (extractFilters c) (c.moduleLabels p)
      = some (((c.moduleLabels p).tail.reverse.find? (fun m => isFilteringModule c m)).getD "") := by
  rw [lastFilterScan_eq _ _ h0]
  have hcongr : ∀ l : List String, (∀ m ∈ l, m ∈ c.moduleLabels p) →
      l.find? (fun m => setMem m (extractFilters c)) = l.find? (fun m => isFilteringModule c m) := by
    intro l
    induction l with
    | nil => intro _; rfl
    | cons a rest ih =>
      intro hl
      have ha : setMem a (extractFilters c) = isFilteringModule c a := by
        have hiff := setMem_extractFilters c a
        by_cases hf : isFilteringModule c a = true
        · rw [hf]
          exact hiff.mpr ⟨p, hp, hl a (List.mem_cons_self _ _), hf⟩
        · simp only [Bool.not_eq_true] at hf
          rw [hf]
          by_contra hcon
          simp only [Bool.not_eq_false] at hcon
          obtain ⟨_, _, _, h⟩ := hiff.mp hcon
          rw [hf] at h
          exact absurd h (by simp)
      simp only [List.find?_cons, ha]
      rw [ih (fun m hm => hl m (List.mem_cons_of_mem _ hm))]
  rw [hcongr]
  intro m hm
  rw [List.mem_reverse] at hm
  exact List.mem_of_mem_tail hm

/-- C1 (code defect): the backward scan never examines position 0.  In a menu whose path
`HLT_Mu20_v3` has the module sequence `[filterA, nonFilterX]`, `filterA` is a filtering
module and belongs to the filter set, yet the scan ends with the fault "No filter found"
instead of locating `filterA`; the rebuild for the template `HLT_Mu20_v` ends with the
same fault.  On the empty sequence the scan reads `modules[2 ^ 64 - 1]` instead of raising
that fault.  On `[filterA, nonFilterX, filterB, hltBoolEnd]` it locates `filterB`. -/
theorem C1_filter_at_position_zero_not_located :
    isFilteringModule Examples.menuFilterFirst "filterA" = true
    ∧ setMem "filterA" (extractFilters Examples.menuFilterFirst) = true
    ∧ locateFilter (extractFilters Examples.menuFilterFirst)
        (Examples.menuFilterFirst.moduleLabels "HLT_Mu20_v3") "HLT_Mu20_v"
        = .error (Fault.noFilterFound "HLT_Mu20_v")
    ∧ (TriggerObjectAnalyzer.beginRun Examples.substringRx
          (TriggerObjectAnalyzer.State.init ["HLT_Mu20_v"])
          (Examples.runChanged Examples.menuFilterFirst)).fault
        = some (Fault.noFilterFound "HLT_Mu20_v")
    ∧ locateFilter (extractFilters Examples.menuFilterFirst) [] "HLT_Mu20_v"
        = .error Fault.outOfRange
    ∧ locateFilter (extractFilters Examples.menuMu20)
        ["filterA", "nonFilterX", "filterB", "hltBoolEnd"] "HLT_Mu20_v" = .ok "filterB" :=
  ⟨by decide, by decide, rfl, by decide, rfl, rfl⟩

/-! ## Run starts without menu change -/

/-- C9: a run start with successful initialisation and no menu change returns the member
data of either plugin exactly as it was (template list, resolved names, filter tables,
algorithm table, record slots), whatever menu a rebuild would have resolved against; two
such run starts in a row therefore leave the member data as it was. -/
theorem C9_unchanged_menu_leaves_tables (rx : String → String → Bool)
    (sA : TriggerAnalyzer.State) (rA rA2 : TriggerAnalyzer.RunStart)
    (sO : TriggerObjectAnalyzer.State) (rO rO2 : TriggerObjectAnalyzer.RunStart)
    (hA : rA.initOk = true ∧ rA.hltMenuChanged = false)
    (hA2 : rA2.initOk = true ∧ rA2.hltMenuChanged = false)
    (hO : rO.initOk = true ∧ rO.hltMenuChanged = false)
    (hO2 : rO2.initOk = true ∧ rO2.hltMenuChanged = false) :
    TriggerAnalyzer.beginRun rx sA rA = .done sA
    ∧ TriggerAnalyzer.run rx sA [.runStart rA, .runStart rA2] = .done sA
    ∧ TriggerObjectAnalyzer.beginRun rx sO rO = .done sO
    ∧ TriggerObjectAnalyzer.run rx sO [.runStart rO, .runStart rO2] = .done sO := by
  have e1 : TriggerAnalyzer.beginRun rx sA rA = .done sA := by
    simp [TriggerAnalyzer.beginRun, hA.1, hA.2]
  have e2 : TriggerAnalyzer.beginRun rx sA rA2 = .done sA := by
    simp [TriggerAnalyzer.beginRun, hA2.1, hA2.2]
  have e3 : TriggerObjectAnalyzer.beginRun rx sO rO = .done sO := by
    simp [TriggerObjectAnalyzer.beginRun, hO.1, hO.2]
  have e4 : TriggerObjectAnalyzer.beginRun rx sO rO2 = .done sO := by
    simp [TriggerObjectAnalyzer.beginRun, hO2.1, hO2.2]
  refine ⟨e1, ?_, e3, ?_⟩
  · simp [TriggerAnalyzer.run, TriggerAnalyzer.step, e1, e2]
  · simp [TriggerObjectAnalyzer.run, TriggerObjectAnalyzer.step, e3, e4]

/-- C9 at a concrete input: after a rebuild against `menuMu20`, run starts that report no
change (while offering a different menu) return the member data unchanged. -/
theorem C9_unchanged_menu_leaves_tables_witness :
    TriggerAnalyzer.beginRun Examples.substringRx
        (TriggerAnalyzer.beginRun Examples.substringRx (TriggerAnalyzer.State.init ["@ALL"] ["@ALL"])
          (Examples.runChangedA Examples.menuMu20)).state
        (Examples.runUnchangedA Examples.menuTwoVersions)
      = .done (TriggerAnalyzer.beginRun Examples.substringRx
          (TriggerAnalyzer.State.init ["@ALL"] ["@ALL"]) (Examples.runChangedA Examples.menuMu20)).state
    ∧ TriggerObjectAnalyzer.beginRun Examples.substringRx
        (TriggerObjectAnalyzer.beginRun Examples.substringRx
          (TriggerObjectAnalyzer.State.init []) (Examples.runChanged Examples.menuMu20)).state
        (Examples.runUnchanged Examples.menuTwoVersions)
      = .done (TriggerObjectAnalyzer.beginRun Examples.substringRx
          (TriggerObjectAnalyzer.State.init []) (Examples.runChanged Examples.menuMu20)).state :=
  have h := C9_unchanged_menu_leaves_tables Examples.substringRx
    (TriggerAnalyzer.beginRun Examples.substringRx (TriggerAnalyzer.State.init ["@ALL"] ["@ALL"])
      (Examples.runChangedA Examples.menuMu20)).state
    (Examples.runUnchangedA Examples.menuTwoVersions) (Examples.runUnchangedA Examples.menuTwoVersions)
    (TriggerObjectAnalyzer.beginRun Examples.substringRx
      (TriggerObjectAnalyzer.State.init []) (Examples.runChanged Examples.menuMu20)).state
    (Examples.runUnchanged Examples.menuTwoVersions) (Examples.runUnchanged Examples.menuTwoVersions)
    ⟨rfl, rfl⟩ ⟨rfl, rfl⟩ ⟨rfl, rfl⟩ ⟨rfl, rfl⟩
  ⟨h.1, h.2.2.1⟩

/-! ## Object mode: the event loop -/

namespace TriggerObjectAnalyzer

/-- The narrowed value lies in the range of `short` and differs from the value by a
multiple of `65536`. -/
theorem toShort_spec (x : Int) :
    -32768 ≤ toShort x ∧ toShort x ≤ 32767 ∧ (x - toShort x) % 65536 = 0 := by
  unfold toShort
  omega

theorem addObjects_fault (m : FilterMap) (s : State) (i : Nat) (f : String) :
    (addObjects m s i f).fault = none ∨ (addObjects m s i f).fault = some Fault.outOfRange := by
  unfold addObjects
  cases mapFind m f with
  | none => simp [Outcome.fault]
  | some objs =>
    cases s.triggerInfo_.get? i with
    | none => simp [Outcome.fault]
    | some trg => simp [Outcome.fault]

theorem fillOne_fault (accept : Nat → Bool) (m : FilterMap) (s : State) (i : Nat) (t : String) :
    (fillOne accept m s i t).fault = none
      ∨ (fillOne accept m s i t).fault = some Fault.outOfRange := by
  unfold fillOne
  split
  · exact addObjects_fault _ _ _ _
  · split
    · dsimp only
      split
      · simp [Outcome.fault]
      · exact addObjects_fault _ _ _ _
    · exact addObjects_fault _ _ _ _

theorem fillLoop_fault (accept : Nat → Bool) (m : FilterMap) (names : List String) (i : Nat)
    (s : State) :
    (fillLoop accept m names i s).fault = none
      ∨ (fillLoop accept m names i s).fault = some Fault.outOfRange := by
  induction names generalizing i s with
  | nil => simp [fillLoop, Outcome.fault]
  | cons t rest ih =>
    have h1 := fillOne_fault accept m s i t
    unfold fillLoop
    cases h : fillOne accept m s i t with
    | done s1 => exact ih (i + 1) s1
    | threw f s1 =>
      rw [h] at h1
      simpa [Outcome.fault] using h1

end TriggerObjectAnalyzer

/-- C8 (as amended): the fault "Trigger object collection not found" of
`TriggerObjectAnalyzer::analyze`.  When the HLT configuration has no path the event is
passed over without fault and without any change of the member data, whatever sources it
holds.  When the configuration has a path and the event holds the trigger results, the
fault is raised if and only if neither object source is available, and it leaves the member
data (the records included) as it was. -/
theorem C8_collection_fault_iff_no_source (s : TriggerObjectAnalyzer.State)
    (ev : TriggerObjectAnalyzer.Event) :
    (s.hltConfig_.size = 0 → TriggerObjectAnalyzer.analyze s ev = .done s)
    ∧ (0 < s.hltConfig_.size → ev.triggerResults.isSome = true →
        ((TriggerObjectAnalyzer.analyze s ev).fault = some Fault.collectionNotFound
            ↔ (ev.triggerEvent.isNone = true ∧ ev.triggerObjects.isNone = true))
        ∧ ((TriggerObjectAnalyzer.analyze s ev).fault = some Fault.collectionNotFound
            → (TriggerObjectAnalyzer.analyze s ev).state = s)) := by
  constructor
  · intro h0
    simp [TriggerObjectAnalyzer.analyze, h0]
  · intro hpos hres
    have hsz : ¬ s.hltConfig_.size ≤ 0 := by omega
    obtain ⟨accept, hacc⟩ := Option.isSome_iff_exists.mp hres
    cases hte : ev.triggerEvent with
    | some te =>
      have hf := TriggerObjectAnalyzer.fillLoop_fault accept
        (TriggerObjectAnalyzer.mapFromTriggerEvent s.filtersInMenu_ te) s.triggerNames_ 0
        { s with triggerInfo_ := s.triggerInfo_.map (fun _ => TriggerObjectAnalyzer.OBJ.empty) }
      have hne : (TriggerObjectAnalyzer.analyze s ev).fault ≠ some Fault.collectionNotFound := by
        simp only [TriggerObjectAnalyzer.analyze, hsz, hacc, TriggerObjectAnalyzer.buildFilterMap,
          hte, if_false]
        rcases hf with hf | hf <;> rw [hf] <;> simp
      exact ⟨⟨fun h => absurd h hne, fun h => by simp at h⟩, fun h => absurd h hne⟩
    | none =>
      cases hto : ev.triggerObjects with
      | some objs =>
        have hf := TriggerObjectAnalyzer.fillLoop_fault accept
          (TriggerObjectAnalyzer.mapFromTriggerObjects objs) s.triggerNames_ 0
          { s with triggerInfo_ := s.triggerInfo_.map (fun _ => TriggerObjectAnalyzer.OBJ.empty) }
        have hne : (TriggerObjectAnalyzer.analyze s ev).fault ≠ some Fault.collectionNotFound := by
          simp only [TriggerObjectAnalyzer.analyze, hsz, hacc, TriggerObjectAnalyzer.buildFilterMap,
            hte, hto, if_false]
          rcases hf with hf | hf <;> rw [hf] <;> simp
        exact ⟨⟨fun h => absurd h hne, fun h => by simp at h⟩, fun h => absurd h hne⟩
      | none =>
        have e : TriggerObjectAnalyzer.analyze s ev = .threw Fault.collectionNotFound s := by
          simp [TriggerObjectAnalyzer.analyze, hsz, hacc, TriggerObjectAnalyzer.buildFilterMap,
            hte, hto]
        simp [e, Outcome.fault, Outcome.state]

/-! ## Decision mode: the rebuild -/

theorem appendBaseNames_eq (names paths : List String) :
    appendBaseNames names paths
      = names ++ (paths.filter (fun p => rfind p "_v" != npos)).map
          (fun p => substr0 p ((find p "_v" + 2) % 2 ^ 64)) := by
  unfold appendBaseNames
  induction paths generalizing names with
  | nil => simp
  | cons p rest ih =>
    rw [List.foldl_cons, ih]
    by_cases h : rfind p "_v" = npos
    · simp [h]
    · simp [h, List.filter_cons]

theorem find?_of_filter_eq_singleton {α : Type} (q : α → Bool) (l : List α) (a : α)
    (h : l.filter q = [a]) : l.find? q = some a := by
  induction l with
  | nil => simp at h
  | cons b rest ih =>
    by_cases hb : q b = true
    · rw [List.filter_cons_of_pos hb] at h
      have : b = a := by injection h
      subst this
      simp [List.find?_cons, hb]
    · rw [List.filter_cons_of_neg hb] at h
      simp only [Bool.not_eq_true] at hb
      simp [List.find?_cons, hb, ih h]

namespace TriggerAnalyzer

theorem matchHltPaths_eq (rx : String → String → Bool) (t : String) (paths : List String)
    (m : List (String × String)) :
    matchHltPaths rx t paths m
      = match paths.find? (fun p => rx p t) with
        | some p => mapSet m t p
        | none => m := by
  induction paths with
  | nil => simp [matchHltPaths]
  | cons p rest ih =>
    by_cases h : rx p t = true
    · simp [matchHltPaths, List.find?_cons, h]
    · simp only [Bool.not_eq_true] at h
      simp [matchHltPaths, List.find?_cons, h, ih]

theorem mapFind_resolve_foldl (rx : String → String → Bool) (paths names : List String)
    (acc : List (String × String)) (t : String) :
    mapFind (names.foldl (fun m n => matchHltPaths rx n paths m) acc) t
      = if t ∈ names then
          (match paths.find? (fun p => rx p t) with
            | some p => some p
            | none => mapFind acc t)
        else mapFind acc t := by
  induction names generalizing acc with
  | nil => simp
  | cons n rest ih =>
    rw [List.foldl_cons, ih, matchHltPaths_eq]
    by_cases hn : n = t
    · subst hn
      by_cases hr : n ∈ rest
      · simp only [hr, if_true, List.mem_cons, true_or]
        cases paths.find? (fun p => rx p n) with
        | none => rfl
        | some p => rfl
      · simp only [hr, if_false, List.mem_cons, true_or, if_true]
        cases paths.find? (fun p => rx p n) with
        | none => rfl
        | some p => simp [mapFind_mapSet]
    · have hmem : (t ∈ n :: rest) ↔ t ∈ rest := by
        simp [List.mem_cons, Ne.symm hn]
      have hacc : mapFind (match paths.find? (fun p => rx p n) with
            | some p => mapSet acc n p
            | none => acc) t = mapFind acc t := by
        cases paths.find? (fun p => rx p n) with
        | none => rfl
        | some p => simp [mapFind_mapSet, hn]
      simp only [hmem, hacc]

theorem mapFind_resolveHlt (rx : String → String → Bool) (paths names : List String)
    (t : String) (ht : t ∈ names) :
    mapFind (resolveHlt rx paths names) t = paths.find? (fun p => rx p t) := by
  unfold resolveHlt
  rw [mapFind_resolve_foldl]
  simp only [ht, if_true]
  cases paths.find? (fun p => rx p t) with
  | none => simp [mapFind]
  | some p => rfl

theorem setMem_resolveL1t_foldl (algoMap : List (String × L1TUtmAlgorithm))
    (names acc : List String) (t : String) :
    setMem t (names.foldl
        (fun acc n => if (mapFind algoMap n).isSome then setInsert acc n else acc) acc)
      = (setMem t acc || (decide (t ∈ names) && (mapFind algoMap t).isSome)) := by
  induction names generalizing acc with
  | nil => simp
  | cons n rest ih =>
    rw [List.foldl_cons, ih]
    by_cases hn : t = n
    · subst hn
      by_cases hs : (mapFind algoMap t).isSome = true
      · simp [hs, setMem_setInsert]
      · simp [hs]
    · by_cases hs : (mapFind algoMap n).isSome = true
      · have hbeq : (t == n) = false := by simpa using hn
        simp [hs, setMem_setInsert, hn, hbeq]
      · simp [hs, hn]

theorem setMem_resolveL1t (algoMap : List (String × L1TUtmAlgorithm)) (names : List String)
    (t : String) :
    setMem t (resolveL1t algoMap names) = (decide (t ∈ names) && (mapFind algoMap t).isSome) := by
  unfold resolveL1t
  rw [setMem_resolveL1t_foldl]
  simp [setMem]

theorem beginRun_changed (rx : String → String → Bool) (s : State) (r : RunStart)
    (h1 : r.initOk = true) (h2 : r.hltMenuChanged = true) :
    beginRun rx s r
      = .done
          { initL1t
              { initHlt { s with hltConfig := r.hltConfig } r.hltConfig.triggerNames with
                hltNamesInMenu_ := resolveHlt rx r.hltConfig.triggerNames
                  (initHlt { s with hltConfig := r.hltConfig } r.hltConfig.triggerNames).hltNames_
                l1tAlgoMap_ := r.l1tAlgoMap } with
            l1TriggersInMenu_ := resolveL1t r.l1tAlgoMap
              (initL1t
                { initHlt { s with hltConfig := r.hltConfig } r.hltConfig.triggerNames with
                  hltNamesInMenu_ := resolveHlt rx r.hltConfig.triggerNames
                    (initHlt { s with hltConfig := r.hltConfig } r.hltConfig.triggerNames).hltNames_
                  l1tAlgoMap_ := r.l1tAlgoMap }).l1tNames_ } := by
  have hL : ∀ x : State, (initL1t x).l1tAlgoMap_ = x.l1tAlgoMap_ := by
    intro x; unfold initL1t; split <;> rfl
  have hH : ∀ (x : State) (p : List String), (initHlt x p).hltConfig = x.hltConfig := by
    intro x p; unfold initHlt; split <;> rfl
  simp [beginRun, h1, h2, hL, hH]

/-- Template list of the HLT tier after the block `if (hltInfo_.empty())`. -/
theorem initHlt_hltNames (s : State) (paths : List String) :
    (initHlt s paths).hltNames_
      = if s.hltInfo_.isEmpty = true ∧ s.hltNames_.head? = some "@ALL" then
          appendBaseNames [] paths
        else s.hltNames_ := by
  unfold initHlt
  cases hi : s.hltInfo_ with
  | cons a rest => simp
  | nil =>
    cases hn : s.hltNames_ with
    | nil => simp
    | cons n rest =>
      by_cases h : n = "@ALL"
      · simp [h]
      · simp [h]

/-- Template list of the L1T tier after the block `if (l1tInfo_.empty())`. -/
theorem initL1t_l1tNames (s : State) :
    (initL1t s).l1tNames_
      = if s.l1tInfo_.isEmpty = true ∧ s.l1tNames_.head? = some "@ALL" then
          s.l1tAlgoMap_.map (fun e => e.2.name)
        else s.l1tNames_ := by
  have hfold : ∀ (l : List (String × L1TUtmAlgorithm)) (acc : List String),
      l.foldl (fun acc l1tAlgo => acc ++ [l1tAlgo.2.name]) acc
        = acc ++ l.map (fun e => e.2.name) := by
    intro l
    induction l with
    | nil => simp
    | cons e rest ih => intro acc; simp [ih]
  unfold initL1t
  cases hi : s.l1tInfo_ with
  | cons a rest => simp
  | nil =>
    cases hn : s.l1tNames_ with
    | nil => simp
    | cons n rest =>
      by_cases h : n = "@ALL"
      · simp [h, hfold]
      · simp [h]

theorem vecResize_length {α : Type} (d : α) (v : List α) (n : Nat) :
    (vecResize d v n).length = n := by
  unfold vecResize
  simp only [List.length_append, List.length_take, List.length_replicate]
  omega

/-- The record vector of the HLT tier after the block `if (hltInfo_.empty())`. -/
theorem initHlt_hltInfo_length (s : State) (paths : List String) :
    (initHlt s paths).hltInfo_.length
      = if s.hltInfo_.isEmpty = true then (initHlt s paths).hltNames_.length
        else s.hltInfo_.length := by
  unfold initHlt
  cases hi : s.hltInfo_ with
  | cons a rest => simp [hi]
  | nil => simp [vecResize_length]

/-- The record vector of the L1T tier after the block `if (l1tInfo_.empty())`. -/
theorem initL1t_l1tInfo_length (s : State) :
    (initL1t s).l1tInfo_.length
      = if s.l1tInfo_.isEmpty = true then (initL1t s).l1tNames_.length
        else s.l1tInfo_.length := by
  unfold initL1t
  cases hi : s.l1tInfo_ with
  | cons a rest => simp [hi]
  | nil => simp [vecResize_length]

theorem initHlt_frame (s : State) (paths : List String) :
    (initHlt s paths).hltNamesInMenu_ = s.hltNamesInMenu_
    ∧ (initHlt s paths).l1TriggersInMenu_ = s.l1TriggersInMenu_
    ∧ (initHlt s paths).l1tAlgoMap_ = s.l1tAlgoMap_
    ∧ (initHlt s paths).l1tInfo_ = s.l1tInfo_
    ∧ (initHlt s paths).l1tNames_ = s.l1tNames_
    ∧ (initHlt s paths).hltConfig = s.hltConfig := by
  unfold initHlt
  split <;> simp

theorem initL1t_frame (s : State) :
    (initL1t s).hltNamesInMenu_ = s.hltNamesInMenu_
    ∧ (initL1t s).l1TriggersInMenu_ = s.l1TriggersInMenu_
    ∧ (initL1t s).l1tAlgoMap_ = s.l1tAlgoMap_
    ∧ (initL1t s).hltInfo_ = s.hltInfo_
    ∧ (initL1t s).hltNames_ = s.hltNames_
    ∧ (initL1t s).hltConfig = s.hltConfig := by
  unfold initL1t
  split <;> simp

/-- The member data after a rebuild (successful initialisation, changed menu), field by
field. -/
theorem beginRun_changed_fields (rx : String → String → Bool) (s : State) (r : RunStart)
    (h1 : r.initOk = true) (h2 : r.hltMenuChanged = true) :
    (beginRun rx s r).fault = none
    ∧ (beginRun rx s r).state.hltConfig = r.hltConfig
    ∧ (beginRun rx s r).state.hltNames_ = (initHlt s r.hltConfig.triggerNames).hltNames_
    ∧ (beginRun rx s r).state.hltInfo_ = (initHlt s r.hltConfig.triggerNames).hltInfo_
    ∧ (beginRun rx s r).state.hltNamesInMenu_
        = resolveHlt rx r.hltConfig.triggerNames (initHlt s r.hltConfig.triggerNames).hltNames_
    ∧ (beginRun rx s r).state.l1tAlgoMap_ = r.l1tAlgoMap
    ∧ (beginRun rx s r).state.l1tNames_ = (initL1t { s with l1tAlgoMap_ := r.l1tAlgoMap }).l1tNames_
    ∧ (beginRun rx s r).state.l1tInfo_ = (initL1t { s with l1tAlgoMap_ := r.l1tAlgoMap }).l1tInfo_
    ∧ (beginRun rx s r).state.l1TriggersInMenu_
        = resolveL1t r.l1tAlgoMap (initL1t { s with l1tAlgoMap_ := r.l1tAlgoMap }).l1tNames_ := by
  have hHn : ∀ c : HLTConfigProvider, (initHlt { s with hltConfig := c } r.hltConfig.triggerNames).hltNames_
      = (initHlt s r.hltConfig.triggerNames).hltNames_ := by
    intro c; unfold initHlt; split <;> simp_all
  have hHi : ∀ c : HLTConfigProvider, (initHlt { s with hltConfig := c } r.hltConfig.triggerNames).hltInfo_
      = (initHlt s r.hltConfig.triggerNames).hltInfo_ := by
    intro c; unfold initHlt; split <;> simp_all
  have hLn : ∀ x : State, x.l1tInfo_ = s.l1tInfo_ → x.l1tNames_ = s.l1tNames_ →
      x.l1tAlgoMap_ = r.l1tAlgoMap →
      (initL1t x).l1tNames_ = (initL1t { s with l1tAlgoMap_ := r.l1tAlgoMap }).l1tNames_
      ∧ (initL1t x).l1tInfo_ = (initL1t { s with l1tAlgoMap_ := r.l1tAlgoMap }).l1tInfo_ := by
    intro x e1 e2 e3
    unfold initL1t
    simp only [e1, e2, e3]
    split <;> simp [e1, e2]
  rw [beginRun_changed rx s r h1 h2]
  simp only [Outcome.fault, Outcome.state]
  have fH := initHlt_frame { s with hltConfig := r.hltConfig } r.hltConfig.triggerNames
  have hx := hLn
    { initHlt { s with hltConfig := r.hltConfig } r.hltConfig.triggerNames with
      hltNamesInMenu_ := resolveHlt rx r.hltConfig.triggerNames
        (initHlt { s with hltConfig := r.hltConfig } r.hltConfig.triggerNames).hltNames_
      l1tAlgoMap_ := r.l1tAlgoMap } fH.2.2.2.1 fH.2.2.2.2.1 rfl
  have fL := initL1t_frame
    { initHlt { s with hltConfig := r.hltConfig } r.hltConfig.triggerNames with
      hltNamesInMenu_ := resolveHlt rx r.hltConfig.triggerNames
        (initHlt { s with hltConfig := r.hltConfig } r.hltConfig.triggerNames).hltNames_
      l1tAlgoMap_ := r.l1tAlgoMap }
  refine ⟨trivial, ?_, ?_, ?_, ?_, ?_, ?_, ?_, ?_⟩
  · rw [fL.2.2.2.2.2]; exact fH.2.2.2.2.2
  · rw [fL.2.2.2.2.1]; exact hHn _
  · rw [fL.2.2.2.1]; exact hHi _
  · rw [fL.1, hHn]
  · rw [fL.2.2.1]
  · exact hx.1
  · exact hx.2
  · rw [hx.1]

end TriggerAnalyzer

/-- C2: after a rebuild of `TriggerAnalyzer::beginRun` (successful initialisation, changed
menu) no fault is raised and, for every template `t` of the template list, the entry of
`hltNamesInMenu_` is the first path of the menu, in enumeration order, that matches `t`:
it is some path `p` exactly when `p` matches and no path enumerated before `p` matches,
and there is no entry exactly when no path of the menu matches. -/
theorem C2_first_matching_path_is_resolved (rx : String → String → Bool)
    (s : TriggerAnalyzer.State) (r : TriggerAnalyzer.RunStart)
    (h1 : r.initOk = true) (h2 : r.hltMenuChanged = true) (t : String)
    (ht : t ∈ (TriggerAnalyzer.beginRun rx s r).state.hltNames_) :
    (TriggerAnalyzer.beginRun rx s r).fault = none
    ∧ mapFind (TriggerAnalyzer.beginRun rx s r).state.hltNamesInMenu_ t
        = r.hltConfig.triggerNames.find? (fun p => rx p t)
    ∧ (∀ p, mapFind (TriggerAnalyzer.beginRun rx s r).state.hltNamesInMenu_ t = some p
        ↔ (rx p t = true ∧ ∃ before after, r.hltConfig.triggerNames = before ++ p :: after
            ∧ ∀ q ∈ before, rx q t = false))
    ∧ (mapFind (TriggerAnalyzer.beginRun rx s r).state.hltNamesInMenu_ t = none
        ↔ ∀ p ∈ r.hltConfig.triggerNames, rx p t = false) := by
  obtain ⟨hf, -, hn, -, hm, -⟩ := TriggerAnalyzer.beginRun_changed_fields rx s r h1 h2
  rw [hn] at ht
  have hfind : mapFind (TriggerAnalyzer.beginRun rx s r).state.hltNamesInMenu_ t
      = r.hltConfig.triggerNames.find? (fun p => rx p t) := by
    rw [hm]; exact TriggerAnalyzer.mapFind_resolveHlt rx _ _ t ht
  refine ⟨hf, hfind, ?_, ?_⟩
  · intro p
    rw [hfind, List.find?_eq_some]
    simp
  · rw [hfind, List.find?_eq_none]
    simp

/-- C2 at a concrete input: with both `HLT_Mu20_v3` and `HLT_Mu20_v4` in the menu, the
template `HLT_Mu20_v` is resolved to `HLT_Mu20_v3`, the first of the two. -/
theorem C2_first_matching_path_is_resolved_witness :
    mapFind (TriggerAnalyzer.beginRun Examples.substringRx
        (TriggerAnalyzer.State.init ["HLT_Mu20_v"] []) (Examples.runChangedA Examples.menuTwoVersions)).state.hltNamesInMenu_
      "HLT_Mu20_v" = some "HLT_Mu20_v3" :=
  (C2_first_matching_path_is_resolved Examples.substringRx
    (TriggerAnalyzer.State.init ["HLT_Mu20_v"] []) (Examples.runChangedA Examples.menuTwoVersions)
    rfl rfl "HLT_Mu20_v" (by decide)).2.1.trans (by decide)

/-- C6 (as stated, refuted): wildcard expansion against a menu with the three paths
`HLT_Mu20_v3`, `HLT_Mu20_v4`, `HLTriggerFinalPath` yields the two entries
`HLT_Mu20_v`, `HLT_Mu20_v`: not three entries, and not one entry per distinct base name. -/
theorem C6_counterexample_expansion_not_N_not_deduplicated :
    Examples.menuTwoVersions.triggerNames.length = 3
    ∧ (TriggerAnalyzer.beginRun Examples.substringRx (TriggerAnalyzer.State.init ["@ALL"] ["@ALL"])
        (Examples.runChangedA Examples.menuTwoVersions)).state.hltNames_
        = ["HLT_Mu20_v", "HLT_Mu20_v"]
    ∧ ¬ ((TriggerAnalyzer.beginRun Examples.substringRx (TriggerAnalyzer.State.init ["@ALL"] ["@ALL"])
        (Examples.runChangedA Examples.menuTwoVersions)).state.hltNames_.length = 3
        ∧ (TriggerAnalyzer.beginRun Examples.substringRx (TriggerAnalyzer.State.init ["@ALL"] ["@ALL"])
        (Examples.runChangedA Examples.menuTwoVersions)).state.hltNames_.Nodup) := by
  decide

/-- C6 (as amended): wildcard expansion at a rebuild with empty record vectors and `@ALL`
as first template of each tier.  The software-tier template list becomes, in menu order,
one entry per path in which `rfind("_v")` finds an occurrence (paths without `"_v"` are
passed over, equal entries are kept), each entry being the prefix of the path that ends
with its first `"_v"`; the record vector gets the same length.  The hardware-tier template
list becomes the names of the `M` algorithms of the table, in table order, and each of
them is entered in `l1TriggersInMenu_` (the table being keyed by algorithm name). -/
theorem C6_wildcard_expansion (rx : String → String → Bool)
    (s : TriggerAnalyzer.State) (r : TriggerAnalyzer.RunStart)
    (h1 : r.initOk = true) (h2 : r.hltMenuChanged = true)
    (hH : s.hltInfo_ = []) (hHn : s.hltNames_.head? = some "@ALL")
    (hL : s.l1tInfo_ = []) (hLn : s.l1tNames_.head? = some "@ALL")
    (hkey : ∀ e ∈ r.l1tAlgoMap, e.2.name = e.1) :
    (TriggerAnalyzer.beginRun rx s r).state.hltNames_
        = (r.hltConfig.triggerNames.filter (fun p => rfind p "_v" != npos)).map
            (fun p => substr0 p ((find p "_v" + 2) % 2 ^ 64))
    ∧ (TriggerAnalyzer.beginRun rx s r).state.hltNames_.length
        = r.hltConfig.triggerNames.countP (fun p => rfind p "_v" != npos)
    ∧ (TriggerAnalyzer.beginRun rx s r).state.hltNames_.length ≤ r.hltConfig.triggerNames.length
    ∧ (TriggerAnalyzer.beginRun rx s r).state.hltInfo_.length
        = (TriggerAnalyzer.beginRun rx s r).state.hltNames_.length
    ∧ (TriggerAnalyzer.beginRun rx s r).state.l1tNames_ = r.l1tAlgoMap.map (fun e => e.2.name)
    ∧ (TriggerAnalyzer.beginRun rx s r).state.l1tNames_.length = r.l1tAlgoMap.length
    ∧ (TriggerAnalyzer.beginRun rx s r).state.l1tInfo_.length = r.l1tAlgoMap.length
    ∧ ∀ t ∈ (TriggerAnalyzer.beginRun rx s r).state.l1tNames_,
        setMem t (TriggerAnalyzer.beginRun rx s r).state.l1TriggersInMenu_ = true := by
  obtain ⟨-, -, hn, hi, -, -, hln, hli, hlt⟩ :=
    TriggerAnalyzer.beginRun_changed_fields rx s r h1 h2
  have en : (TriggerAnalyzer.beginRun rx s r).state.hltNames_
      = (r.hltConfig.triggerNames.filter (fun p => rfind p "_v" != npos)).map
          (fun p => substr0 p ((find p "_v" + 2) % 2 ^ 64)) := by
    rw [hn, TriggerAnalyzer.initHlt_hltNames, appendBaseNames_eq]
    simp [hH, hHn]
  have eln : (TriggerAnalyzer.beginRun rx s r).state.l1tNames_
      = r.l1tAlgoMap.map (fun e => e.2.name) := by
    rw [hln, TriggerAnalyzer.initL1t_l1tNames]
    simp [hL, hLn]
  have hfindkey : ∀ (l : List (String × TriggerAnalyzer.L1TUtmAlgorithm)) (e : String × TriggerAnalyzer.L1TUtmAlgorithm),
      e ∈ l → (mapFind l e.1).isSome = true := by
    intro l
    induction l with
    | nil => intro e he; simp at he
    | cons a rest ih =>
      intro e he
      obtain ⟨k, v⟩ := a
      by_cases hk : k = e.1
      · simp [mapFind, hk]
      · rcases List.mem_cons.mp he with rfl | he'
        · exact absurd rfl hk
        · simp [mapFind, hk, ih e he']
  refine ⟨en, ?_, ?_, ?_, eln, ?_, ?_, ?_⟩
  · rw [en, List.length_map, List.countP_eq_length_filter]
  · rw [en, List.length_map]
    exact List.length_filter_le _ _
  · rw [hi, TriggerAnalyzer.initHlt_hltInfo_length, ← hn]
    simp [hH]
  · rw [eln, List.length_map]
  · rw [hli, TriggerAnalyzer.initL1t_l1tInfo_length, ← hln, eln]
    simp [hL]
  · intro t ht
    rw [hlt, ← hln, TriggerAnalyzer.setMem_resolveL1t]
    have ht' := ht
    rw [eln, List.mem_map] at ht'
    obtain ⟨e, he, rfl⟩ := ht'
    have := hfindkey r.l1tAlgoMap e he
    rw [← hkey e he] at this
    simp [ht, this]

/-- C6 (as amended) at a concrete input: three paths, two of them with `"_v"`, and two
algorithms. -/
theorem C6_wildcard_expansion_witness :
    (TriggerAnalyzer.beginRun Examples.substringRx (TriggerAnalyzer.State.init ["@ALL"] ["@ALL"])
        (Examples.runChangedA Examples.menuTwoVersions)).state.hltNames_.length = 2
    ∧ (TriggerAnalyzer.beginRun Examples.substringRx (TriggerAnalyzer.State.init ["@ALL"] ["@ALL"])
        (Examples.runChangedA Examples.menuTwoVersions)).state.l1tNames_
        = ["L1_SingleMu3", "L1_ZeroBias"] :=
  have h := C6_wildcard_expansion Examples.substringRx (TriggerAnalyzer.State.init ["@ALL"] ["@ALL"])
    (Examples.runChangedA Examples.menuTwoVersions) rfl rfl rfl rfl rfl rfl (by decide)
  ⟨h.2.1.trans (by decide), h.2.2.2.2.1.trans (by decide)⟩

/-! ## Object mode: records after an event -/

namespace TriggerObjectAnalyzer

theorem frame_refl_obj (s : State) : Frame s s :=
  ⟨rfl, rfl, rfl, rfl, fun _ _ h => h, rfl⟩

theorem frame_trans_obj {s s1 s2 : State} (h1 : Frame s s1) (h2 : Frame s1 s2) : Frame s s2 := by
  obtain ⟨a1, b1, c1, d1, e1, f1⟩ := h1
  obtain ⟨a2, b2, c2, d2, e2, f2⟩ := h2
  exact ⟨a2.trans a1, b2.trans b1, c2.trans c1, d2.trans d1,
    fun k v h => e2 k v (e1 k v h), f2.trans f1⟩

theorem addObjects_done (m : FilterMap) (s : State) (i : Nat) (f : String)
    (hi : i < s.triggerInfo_.length) :
    ∃ s1, addObjects m s i f = .done s1 ∧ Frame s s1
      ∧ s1.triggerFiltersInMenu_ = s.triggerFiltersInMenu_
      ∧ ∀ k, s1.triggerInfo_[k]?
          = if k = i then (s.triggerInfo_[i]?).map (withObjects m f) else s.triggerInfo_[k]? := by
  unfold addObjects withObjects
  cases hm : mapFind m f with
  | none =>
    refine ⟨s, rfl, frame_refl_obj s, rfl, ?_⟩
    intro k
    by_cases hk : k = i
    · subst hk; simp
    · simp [hk]
  | some objs =>
    have hget : s.triggerInfo_.get? i = some s.triggerInfo_[i] := by
      simp [List.getElem?_eq_getElem hi]
    rw [hget]
    refine ⟨_, rfl, ⟨rfl, rfl, rfl, rfl, fun _ _ h => h, by simp⟩, rfl, ?_⟩
    intro k
    by_cases hk : k = i
    · subst hk
      simp [List.getElem?_eq_getElem hi, List.getElem?_set, hi]
    · simp [hk, List.getElem?_set, Ne.symm hk]

theorem mapIndex_of_some {β : Type} (d : β) (m : List (String × β)) (k : String) (v : β)
    (h : mapFind m k = some v) : mapIndex d m k = (v, m) := by
  simp [mapIndex, h]

theorem mapFind_mapIndex {β : Type} (d : β) (m : List (String × β)) (k k' : String) (v : β)
    (h : mapFind m k' = some v) : mapFind (mapIndex d m k).2 k' = some v := by
  unfold mapIndex
  cases hk : mapFind m k with
  | some w => simpa using h
  | none =>
    have hne : k ≠ k' := by
      intro e; subst e; rw [h] at hk; exact absurd hk (by simp)
    simp [mapFind_mapSet, hne, h]

theorem fillOne_done (accept : Nat → Bool) (m : FilterMap) (s : State) (i : Nat) (t : String)
    (hi : i < s.triggerInfo_.length) :
    ∃ s1, fillOne accept m s i t = .done s1 ∧ Frame s s1
      ∧ (∀ k, k ≠ i → s1.triggerInfo_[k]? = s.triggerInfo_[k]?)
      ∧ (∀ P F, rfind0 t "hlt" ≠ 0 → mapFind s.triggerNamesInMenu_ t = some P →
          mapFind s.triggerFiltersInMenu_ t = some F →
          s1.triggerInfo_[i]? = (s.triggerInfo_[i]?).map
            (fun trg => if accept (s.hltConfig_.triggerIndex P) = true then withObjects m F trg
              else trg))
      ∧ (rfind0 t "hlt" = 0 → s1.triggerInfo_[i]? = (s.triggerInfo_[i]?).map (withObjects m t))
      ∧ (rfind0 t "hlt" ≠ 0 → mapFind s.triggerNamesInMenu_ t = none →
          s1.triggerInfo_[i]? = (s.triggerInfo_[i]?).map (withObjects m "")) := by
  unfold fillOne
  by_cases hh : rfind0 t "hlt" = 0
  · obtain ⟨s1, e, fr, -, hk⟩ := addObjects_done m s i t hi
    refine ⟨s1, by simp [hh, e], fr, fun k hne => by simp [hk k, hne], ?_,
      fun _ => by simp [hk i], fun hn => absurd hh hn⟩
    intro P F hn
    exact absurd hh hn
  · simp only [beq_iff_eq, hh, if_false]
    cases hn : mapFind s.triggerNamesInMenu_ t with
    | none =>
      obtain ⟨s1, e, fr, -, hk⟩ := addObjects_done m s i "" hi
      refine ⟨s1, by simp [e], fr, fun k hne => by simp [hk k, hne], ?_,
        fun h0 => h0.elim, fun _ _ => by simp [hk i]⟩
      intro P F _ hP
      simp at hP
    | some P =>
      have eN : mapIndex "" s.triggerNamesInMenu_ t = (P, s.triggerNamesInMenu_) :=
        mapIndex_of_some "" _ _ _ hn
      dsimp only
      rw [eN]
      dsimp only
      by_cases ha : accept (s.hltConfig_.triggerIndex P) = true
      · simp only [ha, Bool.not_true, Bool.false_eq_true, if_false]
        have hi' : i < ({ s with
            triggerFiltersInMenu_ := (mapIndex "" s.triggerFiltersInMenu_ t).2,
            triggerNamesInMenu_ := s.triggerNamesInMenu_ } : State).triggerInfo_.length := hi
        obtain ⟨s1, e, fr, ef, hk⟩ := addObjects_done m _ i
          (mapIndex "" s.triggerFiltersInMenu_ t).1 hi'
        refine ⟨s1, e, ?_, fun k hne => by simp [hk k, hne], ?_,
          fun h0 => h0.elim, fun _ h0 => by simp at h0⟩
        · obtain ⟨a, b, c, d, e', f⟩ := fr
          refine ⟨a, b, c, d, ?_, f⟩
          intro k v hkv
          exact e' k v (mapFind_mapIndex "" _ t k v hkv)
        · intro P' F _ hP hF
          have : P' = P := (Option.some.inj hP).symm
          subst this
          rw [hk i, mapIndex_of_some "" _ _ _ hF]
          simp [ha]
      · simp only [ha, Bool.not_false, if_true]
        refine ⟨_, rfl, ?_, fun k _ => rfl, ?_,
          fun h0 => h0.elim, fun _ h0 => by simp at h0⟩
        · refine ⟨rfl, rfl, rfl, rfl, ?_, rfl⟩
          intro k v hkv
          exact mapFind_mapIndex "" _ t k v hkv
        · intro P' F _ hP hF
          have : P' = P := (Option.some.inj hP).symm
          subst this
          simp only [Bool.not_eq_true] at ha
          simp [ha]

theorem fillLoop_done (accept : Nat → Bool) (m : FilterMap) (names : List String) (i : Nat)
    (s : State) (hlen : i + names.length ≤ s.triggerInfo_.length) :
    ∃ s1, fillLoop accept m names i s = .done s1 ∧ Frame s s1
      ∧ (∀ k, k < i → s1.triggerInfo_[k]? = s.triggerInfo_[k]?)
      ∧ (∀ j t P F, names[j]? = some t → rfind0 t "hlt" ≠ 0 →
          mapFind s.triggerNamesInMenu_ t = some P →
          mapFind s.triggerFiltersInMenu_ t = some F →
          s1.triggerInfo_[i + j]? = (s.triggerInfo_[i + j]?).map
            (fun trg => if accept (s.hltConfig_.triggerIndex P) = true then withObjects m F trg
              else trg))
      ∧ (∀ j t, names[j]? = some t → rfind0 t "hlt" = 0 →
          s1.triggerInfo_[i + j]? = (s.triggerInfo_[i + j]?).map (withObjects m t))
      ∧ (∀ j t, names[j]? = some t → rfind0 t "hlt" ≠ 0 →
          mapFind s.triggerNamesInMenu_ t = none →
          s1.triggerInfo_[i + j]? = (s.triggerInfo_[i + j]?).map (withObjects m "")) := by
  induction names generalizing i s with
  | nil =>
    refine ⟨s, rfl, frame_refl_obj s, fun _ _ => rfl, ?_, ?_, ?_⟩
    · intro j t P F hj
      simp at hj
    · intro j t hj
      simp at hj
    · intro j t hj
      simp at hj
  | cons t0 rest ih =>
    have hi : i < s.triggerInfo_.length := by
      simp only [List.length_cons] at hlen; omega
    obtain ⟨s1, e1, fr1, hk1, hr1, hh1, hu1⟩ := fillOne_done accept m s i t0 hi
    have hlen1 : (i + 1) + rest.length ≤ s1.triggerInfo_.length := by
      rw [fr1.2.2.2.2.2]; simp only [List.length_cons] at hlen; omega
    obtain ⟨s2, e2, fr2, hk2, hr2, hh2, hu2⟩ := ih (i + 1) s1 hlen1
    refine ⟨s2, ?_, frame_trans_obj fr1 fr2, ?_, ?_, ?_, ?_⟩
    · simp [fillLoop, e1, e2]
    · intro k hk
      rw [hk2 k (by omega), hk1 k (by omega)]
    · intro j t P F hj hh hP hF
      cases j with
      | zero =>
        simp only [List.getElem?_cons_zero, Option.some.injEq] at hj
        subst hj
        rw [Nat.add_zero, hk2 i (by omega)]
        exact hr1 P F hh hP hF
      | succ j =>
        simp only [List.getElem?_cons_succ] at hj
        have hP1 : mapFind s1.triggerNamesInMenu_ t = some P := by rw [fr1.2.2.2.1]; exact hP
        have hF1 : mapFind s1.triggerFiltersInMenu_ t = some F := fr1.2.2.2.2.1 t F hF
        have := hr2 j t P F hj hh hP1 hF1
        rw [fr1.2.1, hk1 (i + 1 + j) (by omega)] at this
        rw [show i + (j + 1) = i + 1 + j by omega]
        exact this
    · intro j t hj hh
      cases j with
      | zero =>
        simp only [List.getElem?_cons_zero, Option.some.injEq] at hj
        subst hj
        rw [Nat.add_zero, hk2 i (by omega)]
        exact hh1 hh
      | succ j =>
        simp only [List.getElem?_cons_succ] at hj
        have := hh2 j t hj hh
        rw [hk1 (i + 1 + j) (by omega)] at this
        rw [show i + (j + 1) = i + 1 + j by omega]
        exact this
    · intro j t hj hh hn
      cases j with
      | zero =>
        simp only [List.getElem?_cons_zero, Option.some.injEq] at hj
        subst hj
        rw [Nat.add_zero, hk2 i (by omega)]
        exact hu1 hh hn
      | succ j =>
        simp only [List.getElem?_cons_succ] at hj
        have := hu2 j t hj hh (by rw [fr1.2.2.2.1]; exact hn)
        rw [hk1 (i + 1 + j) (by omega)] at this
        rw [show i + (j + 1) = i + 1 + j by omega]
        exact this

end TriggerObjectAnalyzer

/-! ## Object mode: the rebuild -/

namespace TriggerObjectAnalyzer

theorem matchPaths_done (rx : String → String → Bool) (c : HLTConfigProvider)
    (filters : List String) (t : String) (paths : List String) (s s1 : State)
    (h : matchPaths rx c filters t paths s = .done s1) :
    (paths.find? (fun p => rx p t) = none ∧ s1 = s)
    ∨ ∃ p F, paths.find? (fun p => rx p t) = some p
        ∧ locateFilter filters (c.moduleLabelsAt (c.triggerIndex p)) t = .ok F
        ∧ s1 = { s with
            filtersInMenu_ := setInsert s.filtersInMenu_ F
            triggerNamesInMenu_ := mapSet s.triggerNamesInMenu_ t p
            triggerFiltersInMenu_ := mapSet s.triggerFiltersInMenu_ t F } := by
  induction paths with
  | nil =>
    simp only [matchPaths, Outcome.done.injEq] at h
    exact Or.inl ⟨rfl, h.symm⟩
  | cons p rest ih =>
    by_cases hr : rx p t = true
    · rw [matchPaths, if_neg (by simp [hr])] at h
      dsimp only at h
      cases hl : locateFilter filters (c.moduleLabelsAt (c.triggerIndex p)) t with
      | error f => rw [hl] at h; simp at h
      | ok F =>
        rw [hl] at h
        simp only [Outcome.done.injEq] at h
        exact Or.inr ⟨p, F, by simp [List.find?_cons, hr], hl, h.symm⟩
    · simp only [Bool.not_eq_true] at hr
      rw [matchPaths, if_pos (by simp [hr])] at h
      rcases ih h with ⟨hn, e⟩ | ⟨q, F, hq, hl, e⟩
      · exact Or.inl ⟨by simp [List.find?_cons, hr, hn], e⟩
      · exact Or.inr ⟨q, F, by simp [List.find?_cons, hr, hq], hl, e⟩

/-- The effect of one iteration of "find triggers in menu" that ends normally. -/
theorem resolveOne_done (rx : String → String → Bool) (c : HLTConfigProvider)
    (filters : List String) (s s1 : State) (t : String)
    (h : resolveOne rx c filters s t = .done s1) :
    s1.triggerNames_ = s.triggerNames_ ∧ s1.hltConfig_ = s.hltConfig_
    ∧ s1.triggerInfo_ = s.triggerInfo_
    ∧ ((s1.triggerNamesInMenu_ = s.triggerNamesInMenu_
          ∧ s1.triggerFiltersInMenu_ = s.triggerFiltersInMenu_
          ∧ (rfind0 t "hlt" = 0 ∨ rfind t "_v" = npos
              ∨ c.triggerNames.find? (fun p => rx p t) = none))
        ∨ (rfind0 t "hlt" ≠ 0 ∧ rfind t "_v" ≠ npos
            ∧ ∃ p F, c.triggerNames.find? (fun p => rx p t) = some p
              ∧ locateFilter filters (c.moduleLabelsAt (c.triggerIndex p)) t = .ok F
              ∧ s1.triggerNamesInMenu_ = mapSet s.triggerNamesInMenu_ t p
              ∧ s1.triggerFiltersInMenu_ = mapSet s.triggerFiltersInMenu_ t F)) := by
  unfold resolveOne at h
  by_cases hh : rfind0 t "hlt" = 0
  · simp only [hh, beq_self_eq_true, if_true] at h
    by_cases hm : setMem t filters = true
    · simp only [hm, if_true, Outcome.done.injEq] at h
      subst h
      exact ⟨rfl, rfl, rfl, Or.inl ⟨rfl, rfl, Or.inl hh⟩⟩
    · simp only [hm, Bool.false_eq_true, if_false, Outcome.done.injEq] at h
      subst h
      exact ⟨rfl, rfl, rfl, Or.inl ⟨rfl, rfl, Or.inl hh⟩⟩
  · simp only [beq_iff_eq, hh, if_false] at h
    by_cases hv : rfind t "_v" = npos
    · simp only [hv, bne_self_eq_false, Bool.false_eq_true, if_false, Outcome.done.injEq] at h
      subst h
      exact ⟨rfl, rfl, rfl, Or.inl ⟨rfl, rfl, Or.inr (Or.inl hv)⟩⟩
    · have hv' : (rfind t "_v" != npos) = true := by simpa using hv
      simp only [hv', if_true] at h
      rcases matchPaths_done rx c filters t _ s s1 h with ⟨hn, e⟩ | ⟨p, F, hp, hl, e⟩
      · subst e
        exact ⟨rfl, rfl, rfl, Or.inl ⟨rfl, rfl, Or.inr (Or.inr hn)⟩⟩
      · subst e
        exact ⟨rfl, rfl, rfl, Or.inr ⟨hh, hv, p, F, hp, hl, rfl, rfl⟩⟩

theorem resolveLoop_cons_done (rx : String → String → Bool) (c : HLTConfigProvider)
    (filters : List String) (t : String) (rest : List String) (s s2 : State)
    (h : resolveLoop rx c filters (t :: rest) s = .done s2) :
    ∃ s1, resolveOne rx c filters s t = .done s1 ∧ resolveLoop rx c filters rest s1 = .done s2 := by
  unfold resolveLoop at h
  cases h1 : resolveOne rx c filters s t with
  | done s1 => rw [h1] at h; exact ⟨s1, rfl, h⟩
  | threw f s1 => rw [h1] at h; simp at h

theorem resolveLoop_frame (rx : String → String → Bool) (c : HLTConfigProvider)
    (filters : List String) (names : List String) (s s2 : State)
    (h : resolveLoop rx c filters names s = .done s2) :
    s2.triggerNames_ = s.triggerNames_ ∧ s2.hltConfig_ = s.hltConfig_
    ∧ s2.triggerInfo_ = s.triggerInfo_ := by
  induction names generalizing s with
  | nil =>
    simp only [resolveLoop, Outcome.done.injEq] at h
    subst h; exact ⟨rfl, rfl, rfl⟩
  | cons t rest ih =>
    obtain ⟨s1, h1, h2⟩ := resolveLoop_cons_done rx c filters t rest s s2 h
    obtain ⟨a, b, d, -⟩ := resolveOne_done rx c filters s s1 t h1
    obtain ⟨a2, b2, d2⟩ := ih s1 h2
    exact ⟨a2.trans a, b2.trans b, d2.trans d⟩

theorem mem_of_find?_eq_some {α : Type} (q : α → Bool) (l : List α) (a : α)
    (h : l.find? q = some a) : a ∈ l := by
  rw [List.find?_eq_some] at h
  obtain ⟨-, as, bs, e, -⟩ := h
  rw [e]; simp

theorem resolveLoop_entries (rx : String → String → Bool) (c : HLTConfigProvider)
    (filters : List String) (names : List String) (s s2 : State)
    (hs : EntriesOK c s) (h : resolveLoop rx c filters names s = .done s2) :
    EntriesOK c s2 := by
  induction names generalizing s with
  | nil =>
    simp only [resolveLoop, Outcome.done.injEq] at h
    subst h; exact hs
  | cons t rest ih =>
    obtain ⟨s1, h1, h2⟩ := resolveLoop_cons_done rx c filters t rest s s2 h
    refine ih s1 ?_ h2
    obtain ⟨-, -, -, hcase⟩ := resolveOne_done rx c filters s s1 t h1
    rcases hcase with ⟨en, ef, -⟩ | ⟨hh, hv, p, F, hp, hl, en, ef⟩
    · intro t' P hP
      rw [en] at hP
      rw [ef]
      exact hs t' P hP
    · intro t' P hP
      rw [en, mapFind_mapSet] at hP
      rw [ef, mapFind_mapSet]
      by_cases e : t = t'
      · subst e
        simp only [if_true, Option.some.injEq] at hP
        subst hP
        exact ⟨hh, mem_of_find?_eq_some _ _ _ hp, F, by simp⟩
      · simp only [e, if_false] at hP
        simpa [e] using hs t' P hP

/-- The resolved-name table after the loop "find triggers in menu" that ends normally. -/
theorem resolveLoop_lookup (rx : String → String → Bool) (c : HLTConfigProvider)
    (filters : List String) (names : List String) (s s2 : State)
    (h : resolveLoop rx c filters names s = .done s2) (t : String) :
    mapFind s2.triggerNamesInMenu_ t
      = if t ∈ names ∧ rfind0 t "hlt" ≠ 0 ∧ rfind t "_v" ≠ npos then
          (match c.triggerNames.find? (fun p => rx p t) with
            | some p => some p
            | none => mapFind s.triggerNamesInMenu_ t)
        else mapFind s.triggerNamesInMenu_ t := by
  induction names generalizing s with
  | nil =>
    simp only [resolveLoop, Outcome.done.injEq] at h
    subst h; simp
  | cons t0 rest ih =>
    obtain ⟨s1, h1, h2⟩ := resolveLoop_cons_done rx c filters t0 rest s s2 h
    rw [ih s1 h2]
    obtain ⟨-, -, -, hcase⟩ := resolveOne_done rx c filters s s1 t0 h1
    by_cases e : t0 = t
    · subst e
      rcases hcase with ⟨en, -, hneg⟩ | ⟨hh, hv, p, F, hp, hl, en, -⟩
      · rw [en]
        rcases hneg with hneg | hneg | hneg
        · simp [hneg]
        · simp [hneg]
        · simp [hneg]
      · rw [en, hp]
        simp [hh, hv, mapFind_mapSet]
    · have e1 : mapFind s1.triggerNamesInMenu_ t = mapFind s.triggerNamesInMenu_ t := by
        rcases hcase with ⟨en, -, -⟩ | ⟨-, -, p, F, -, -, en, -⟩
        · rw [en]
        · rw [en, mapFind_mapSet]; simp [e]
      have e2 : (t ∈ t0 :: rest) ↔ t ∈ rest := by simp [List.mem_cons, Ne.symm e]
      simp only [e1, e2]

theorem initInfo_frame (s : State) :
    (initInfo s).hltConfig_ = s.hltConfig_
    ∧ (initInfo s).filtersInMenu_ = s.filtersInMenu_
    ∧ (initInfo s).triggerNamesInMenu_ = s.triggerNamesInMenu_
    ∧ (initInfo s).triggerFiltersInMenu_ = s.triggerFiltersInMenu_ := by
  unfold initInfo
  split <;> simp

theorem initInfo_length (s : State)
    (h : s.triggerInfo_.length = s.triggerNames_.length ∨ s.triggerInfo_ = []) :
    (initInfo s).triggerInfo_.length = (initInfo s).triggerNames_.length := by
  unfold initInfo
  cases hi : s.triggerInfo_ with
  | nil => simp [vecResize]
  | cons a rest =>
    rcases h with h | h
    · simpa [hi] using h
    · rw [hi] at h; simp at h

/-- Once the record vector is non-empty, the block "initialize trigger information" is a
no-op. -/
theorem initInfo_of_ne_nil (s : State) (h : s.triggerInfo_ ≠ []) : initInfo s = s := by
  unfold initInfo
  cases hi : s.triggerInfo_ with
  | nil => exact absurd hi h
  | cons a rest => simp

theorem outcome_of_fault_none {σ : Type} (o : Outcome σ) (h : o.fault = none) :
    o = .done o.state := by
  cases o with
  | done s => rfl
  | threw f s => simp [Outcome.fault] at h

theorem beginRun_rebuild_obj (rx : String → String → Bool) (s : State) (r : RunStart)
    (h1 : r.initOk = true) (h2 : r.hltMenuChanged = true) :
    beginRun rx s r
      = resolveLoop rx r.menu (extractFilters r.menu)
          (initInfo { s with hltConfig_ := r.menu }).triggerNames_
          { initInfo { s with hltConfig_ := r.menu } with
            filtersInMenu_ := [], triggerNamesInMenu_ := [], triggerFiltersInMenu_ := [] } := by
  have hc := (initInfo_frame { s with hltConfig_ := r.menu }).1
  simp only [beginRun, h1, h2, Bool.not_true, Bool.false_eq_true, if_false]
  rw [hc]

/-- The member data after a rebuild that ends normally. -/
theorem beginRun_done (rx : String → String → Bool) (s s1 : State) (r : RunStart)
    (h1 : r.initOk = true) (h2 : r.hltMenuChanged = true)
    (h : beginRun rx s r = .done s1) :
    s1.hltConfig_ = r.menu
    ∧ s1.triggerNames_ = (initInfo { s with hltConfig_ := r.menu }).triggerNames_
    ∧ s1.triggerInfo_ = (initInfo { s with hltConfig_ := r.menu }).triggerInfo_
    ∧ EntriesOK r.menu s1
    ∧ ∀ t, mapFind s1.triggerNamesInMenu_ t
        = if t ∈ s1.triggerNames_ ∧ rfind0 t "hlt" ≠ 0 ∧ rfind t "_v" ≠ npos then
            r.menu.triggerNames.find? (fun p => rx p t)
          else none := by
  rw [beginRun_rebuild_obj rx s r h1 h2] at h
  obtain ⟨a, b, c⟩ := resolveLoop_frame rx _ _ _ _ s1 h
  have hc := (initInfo_frame { s with hltConfig_ := r.menu }).1
  refine ⟨?_, a, c, ?_, ?_⟩
  · rw [b]; exact hc
  · refine resolveLoop_entries rx _ _ _ _ s1 ?_ h
    intro t P hP
    simp [mapFind] at hP
  · intro t
    rw [resolveLoop_lookup rx _ _ _ _ s1 h t, a]
    split
    · cases r.menu.triggerNames.find? (fun p => rx p t) with
      | none => simp [mapFind]
      | some p => rfl
    · simp [mapFind]

theorem beginRun_inv (rx : String → String → Bool) (s s1 : State) (r : RunStart)
    (hs : Inv s) (h : beginRun rx s r = .done s1) : Inv s1 := by
  by_cases h1 : r.initOk = true
  · by_cases h2 : r.hltMenuChanged = true
    · obtain ⟨a, b, c, d, -⟩ := beginRun_done rx s s1 r h1 h2 h
      refine ⟨Or.inl ?_, ?_⟩
      · rw [b, c]
        apply initInfo_length
        rcases hs.1 with hl | ⟨hl, -⟩
        · exact Or.inl hl
        · exact Or.inr hl
      · rw [a]; exact d
    · have : beginRun rx s r = .done s := by simp [beginRun, h1, h2]
      rw [this] at h
      simp only [Outcome.done.injEq] at h
      subst h; exact hs
  · have : beginRun rx s r = .threw Fault.initFailed s := by simp [beginRun, h1]
    rw [this] at h
    simp at h

theorem analyze_frame (s s1 : State) (ev : Event) (hs : Inv s)
    (h : analyze s ev = .done s1) : Frame s s1 := by
  by_cases hsz : s.hltConfig_.size ≤ 0
  · have : analyze s ev = .done s := by simp [analyze, hsz]
    rw [this] at h
    simp only [Outcome.done.injEq] at h
    subst h; exact frame_refl_obj s
  · have hlen : s.triggerInfo_.length = s.triggerNames_.length := by
      rcases hs.1 with hl | ⟨-, h0⟩
      · exact hl
      · omega
    cases hacc : ev.triggerResults with
    | none => simp [analyze, hsz, hacc] at h
    | some accept =>
      cases hm : buildFilterMap s ev with
      | none => simp [analyze, hsz, hacc, hm] at h
      | some m =>
        have hlen' : 0 + s.triggerNames_.length
            ≤ ({ s with triggerInfo_ := s.triggerInfo_.map (fun _ => OBJ.empty) } : State).triggerInfo_.length := by
          simp [hlen]
        obtain ⟨s2, e, fr, -, -, -, -⟩ := fillLoop_done accept m s.triggerNames_ 0
          { s with triggerInfo_ := s.triggerInfo_.map (fun _ => OBJ.empty) } hlen'
        simp only [analyze, hsz, hacc, hm, if_false] at h
        rw [e] at h
        simp only [Outcome.done.injEq] at h
        subst h
        obtain ⟨a, b, c, d, e', f⟩ := fr
        exact ⟨a, b, c, d, e', by simpa using f⟩

theorem analyze_inv (s s1 : State) (ev : Event) (hs : Inv s)
    (h : analyze s ev = .done s1) : Inv s1 := by
  obtain ⟨a, b, c, d, e, f⟩ := analyze_frame s s1 ev hs h
  refine ⟨?_, ?_⟩
  · rcases hs.1 with hl | ⟨hl, h0⟩
    · exact Or.inl (by rw [f, a]; exact hl)
    · refine Or.inr ⟨?_, by rw [b]; exact h0⟩
      have : s1.triggerInfo_.length = 0 := by rw [f, hl]; rfl
      exact List.eq_nil_of_length_eq_zero this
  · intro t P hP
    rw [d] at hP
    obtain ⟨x, y, F, z⟩ := hs.2 t P hP
    exact ⟨x, by rw [b]; exact y, F, e t F z⟩

theorem init_inv_obj (names : List String) : Inv (State.init names) := by
  refine ⟨Or.inr ⟨rfl, rfl⟩, ?_⟩
  intro t P hP
  simp [State.init, mapFind] at hP

theorem mapFind_emplaceBack_none (m : FilterMap) (f k : String) (o : TriggerObject)
    (hk : k ≠ f) (h : mapFind m k = none) : mapFind (emplaceBack m f o) k = none := by
  unfold emplaceBack
  cases mapFind m f with
  | none => simp [mapFind_mapSet, Ne.symm hk, h]
  | some objs => simp [mapFind_mapSet, Ne.symm hk, h]

/-- The map built from the filter-keyed summary has keys in `filtersInMenu_` only. -/
theorem mapFromTriggerEvent_none (filtersInMenu : List String) (te : TriggerEvent) (k : String)
    (hk : setMem k filtersInMenu = false) :
    mapFind (mapFromTriggerEvent filtersInMenu te) k = none := by
  have hinner : ∀ (keys : List Nat) (f : String) (acc : FilterMap), k ≠ f →
      mapFind acc k = none →
      mapFind (keys.foldl (fun m key => emplaceBack m f (te.getObject key)) acc) k = none := by
    intro keys f
    induction keys with
    | nil => intro acc _ h; exact h
    | cons key rest ih =>
      intro acc hne h
      rw [List.foldl_cons]
      exact ih _ hne (mapFind_emplaceBack_none acc f k _ hne h)
  have houter : ∀ (fs : List String) (acc : FilterMap), setMem k fs = false →
      mapFind acc k = none →
      mapFind (fs.foldl
        (fun m filter =>
          let filterIndex := te.filterIndex filter
          if filterIndex ≥ te.sizeFilters then m
          else (te.filterKeys filterIndex).foldl
            (fun m key => emplaceBack m filter (te.getObject key)) m) acc) k = none := by
    intro fs
    induction fs with
    | nil => intro acc _ h; exact h
    | cons f rest ih =>
      intro acc hmem h
      have hne : k ≠ f := by
        intro e; subst e; simp [setMem] at hmem
      have hrest : setMem k rest = false := by
        simp only [setMem, List.contains_cons, Bool.or_eq_false_iff] at hmem
        simpa [setMem] using hmem.2
      rw [List.foldl_cons]
      apply ih _ hrest
      dsimp only
      split
      · exact h
      · exact hinner _ f acc hne h
  unfold mapFromTriggerEvent
  exact houter filtersInMenu [] hk rfl

theorem scanFrom_mem (filters modules : List String) (k : Nat) (f : String)
    (h : scanFrom filters modules k = some f) : f = "" ∨ setMem f filters = true := by
  induction k with
  | zero =>
    simp only [scanFrom, Option.some.injEq] at h
    exact Or.inl h.symm
  | succ k ih =>
    unfold scanFrom at h
    cases hg : modules.get? (k + 1) with
    | none => rw [hg] at h; simp at h
    | some module =>
      rw [hg] at h
      dsimp only at h
      by_cases hm : setMem module filters = true
      · rw [if_pos hm] at h
        simp only [Option.some.injEq] at h
        subst h
        exact Or.inr hm
      · rw [if_neg hm] at h
        exact ih h

/-- A filter located by FilterLocator is a non-empty member of `filters`. -/
theorem locateFilter_ok (filters modules : List String) (t F : String)
    (h : locateFilter filters modules t = .ok F) : F ≠ "" ∧ setMem F filters = true := by
  unfold locateFilter at h
  cases hs : lastFilterScan filters modules with
  | none => rw [hs] at h; simp at h
  | some f =>
    rw [hs] at h
    dsimp only at h
    by_cases he : f = ""
    · simp [he] at h
    · have hb : (f == "") = false := by simpa using he
      simp only [hb, Bool.false_eq_true, if_false, Except.ok.injEq] at h
      subst h
      unfold lastFilterScan at hs
      rcases scanFrom_mem filters modules (sizeMinusOne modules.length) f hs with h0 | h0
      · exact absurd h0 he
      · exact ⟨he, h0⟩

theorem ne_empty_of_hlt (t : String) (h : rfind0 t "hlt" = 0) : t ≠ "" := by
  intro e
  subst e
  revert h
  decide

theorem resolveOne_filters (rx : String → String → Bool) (c : HLTConfigProvider)
    (filters : List String) (s s1 : State) (t : String)
    (h : resolveOne rx c filters s t = .done s1) (f : String)
    (hf : setMem f s1.filtersInMenu_ = true) :
    setMem f s.filtersInMenu_ = true ∨ (f ≠ "" ∧ setMem f filters = true) := by
  unfold resolveOne at h
  by_cases hh : rfind0 t "hlt" = 0
  · simp only [hh, beq_self_eq_true, if_true] at h
    by_cases hm : setMem t filters = true
    · simp only [hm, if_true, Outcome.done.injEq] at h
      subst h
      simp only [setMem_setInsert, Bool.or_eq_true, beq_iff_eq] at hf
      rcases hf with hf | hf
      · exact Or.inl hf
      · subst hf; exact Or.inr ⟨ne_empty_of_hlt f hh, hm⟩
    · simp only [hm, Bool.false_eq_true, if_false, Outcome.done.injEq] at h
      subst h; exact Or.inl hf
  · simp only [beq_iff_eq, hh, if_false] at h
    by_cases hv : rfind t "_v" = npos
    · simp only [hv, bne_self_eq_false, Bool.false_eq_true, if_false, Outcome.done.injEq] at h
      subst h; exact Or.inl hf
    · have hv' : (rfind t "_v" != npos) = true := by simpa using hv
      simp only [hv', if_true] at h
      rcases matchPaths_done rx c filters t _ s s1 h with ⟨-, e⟩ | ⟨p, F, -, hl, e⟩
      · subst e; exact Or.inl hf
      · subst e
        simp only [setMem_setInsert, Bool.or_eq_true, beq_iff_eq] at hf
        rcases hf with hf | hf
        · exact Or.inl hf
        · subst hf; exact Or.inr (locateFilter_ok _ _ _ _ hl)

theorem resolveLoop_filters (rx : String → String → Bool) (c : HLTConfigProvider)
    (filters : List String) (names : List String) (s s2 : State)
    (hs : ∀ f, setMem f s.filtersInMenu_ = true → f ≠ "" ∧ setMem f filters = true)
    (h : resolveLoop rx c filters names s = .done s2) :
    ∀ f, setMem f s2.filtersInMenu_ = true → f ≠ "" ∧ setMem f filters = true := by
  induction names generalizing s with
  | nil =>
    simp only [resolveLoop, Outcome.done.injEq] at h
    subst h; exact hs
  | cons t rest ih =>
    obtain ⟨s1, h1, h2⟩ := resolveLoop_cons_done rx c filters t rest s s2 h
    refine ih s1 ?_ h2
    intro f hf
    rcases resolveOne_filters rx c filters s s1 t h1 f hf with h0 | h0
    · exact hs f h0
    · exact h0

theorem beginRun_filtersOK (rx : String → String → Bool) (s s1 : State) (r : RunStart)
    (hs : FiltersOK s) (h : beginRun rx s r = .done s1) : FiltersOK s1 := by
  by_cases h1 : r.initOk = true
  · by_cases h2 : r.hltMenuChanged = true
    · obtain ⟨a, -⟩ := beginRun_done rx s s1 r h1 h2 h
      rw [beginRun_rebuild_obj rx s r h1 h2] at h
      intro f hf
      rw [a]
      refine resolveLoop_filters rx _ _ _ _ s1 ?_ h f hf
      intro g hg
      simp [setMem] at hg
    · have : beginRun rx s r = .done s := by simp [beginRun, h1, h2]
      rw [this] at h
      simp only [Outcome.done.injEq] at h
      subst h; exact hs
  · have : beginRun rx s r = .threw Fault.initFailed s := by simp [beginRun, h1]
    rw [this] at h
    simp at h

/-- The invariants hold after every sequence of run starts and events. -/
theorem run_filtersOK (rx : String → String → Bool) (inputs : List Input) (s s1 : State)
    (hs : Inv s ∧ FiltersOK s) (h : run rx s inputs = .done s1) : Inv s1 ∧ FiltersOK s1 := by
  induction inputs generalizing s with
  | nil =>
    simp only [run, Outcome.done.injEq] at h
    subst h; exact hs
  | cons x rest ih =>
    unfold run at h
    cases hx : step rx s x with
    | threw f s2 => rw [hx] at h; simp at h
    | done s2 =>
      rw [hx] at h
      refine ih s2 ?_ h
      cases x with
      | runStart r =>
        exact ⟨beginRun_inv rx s s2 r hs.1 hx, beginRun_filtersOK rx s s2 r hs.2 hx⟩
      | event ev =>
        refine ⟨analyze_inv s s2 ev hs.1 hx, ?_⟩
        obtain ⟨-, b, c, -⟩ := analyze_frame s s2 ev hs.1 hx
        intro f hf
        rw [b]
        rw [c] at hf
        exact hs.2 f hf

/-- Unresolved templates under the filter-keyed summary.  In every state reached from
construction whose configuration has a path, for a template that the rebuild did not find
(a name starting with `hlt` outside of the filter set of the menu, or a name without
entry in the resolved-name table) and an event that holds the trigger results and the
filter-keyed summary: `analyze` ends without fault and the record of the template is
empty. -/
theorem analyze_unresolved_summary (rx : String → String → Bool) (names0 : List String)
    (inputs : List Input) (s : State) (ev : Event) (accept : Nat → Bool) (te : TriggerEvent)
    (i : Nat) (t : String)
    (hreach : run rx (State.init names0) inputs = .done s)
    (hsize : 0 < s.hltConfig_.size)
    (ht : s.triggerNames_[i]? = some t)
    (hun : (rfind0 t "hlt" = 0 ∧ setMem t (extractFilters s.hltConfig_) = false)
      ∨ (rfind0 t "hlt" ≠ 0 ∧ mapFind s.triggerNamesInMenu_ t = none))
    (hacc : ev.triggerResults = some accept) (hte : ev.triggerEvent = some te) :
    (analyze s ev).fault = none
    ∧ (analyze s ev).state.triggerInfo_[i]? = some OBJ.empty := by
  have hfo : FiltersOK (State.init names0) := by
    intro f hf
    simp [State.init, setMem] at hf
  obtain ⟨hinv, hfil⟩ := run_filtersOK rx inputs _ s ⟨init_inv_obj names0, hfo⟩ hreach
  have hsz : ¬ s.hltConfig_.size ≤ 0 := by omega
  have hlen : s.triggerInfo_.length = s.triggerNames_.length := by
    rcases hinv.1 with hl | ⟨-, h0⟩
    · exact hl
    · omega
  have hlen' : 0 + s.triggerNames_.length
      ≤ ({ s with triggerInfo_ := s.triggerInfo_.map (fun _ => OBJ.empty) } : State).triggerInfo_.length := by
    simp [hlen]
  obtain ⟨s1, e, -, -, -, hh, hu⟩ := fillLoop_done accept
    (mapFromTriggerEvent s.filtersInMenu_ te) s.triggerNames_ 0
    { s with triggerInfo_ := s.triggerInfo_.map (fun _ => OBJ.empty) } hlen'
  have hi : i < s.triggerInfo_.length := by
    rw [hlen]
    exact (List.getElem?_eq_some_iff.mp ht).1
  have hrun : analyze s ev = .done s1 := by
    simp only [analyze, hsz, hacc, buildFilterMap, hte, if_false]
    exact e
  have hclear : (s.triggerInfo_.map (fun _ => OBJ.empty))[i]? = some OBJ.empty := by
    rw [List.getElem?_map, List.getElem?_eq_getElem hi]; rfl
  rw [hrun]
  refine ⟨rfl, ?_⟩
  simp only [Outcome.state]
  rcases hun with ⟨h0, hnot⟩ | ⟨h0, hnone⟩
  · have hkey : setMem t s.filtersInMenu_ = false := by
      by_contra hcon
      simp only [Bool.not_eq_false] at hcon
      have := (hfil t hcon).2
      rw [hnot] at this
      exact absurd this (by simp)
    have := hh i t ht h0
    rw [Nat.zero_add] at this
    rw [this]
    simp only [hclear, Option.map_some', withObjects,
      mapFromTriggerEvent_none s.filtersInMenu_ te t hkey]
  · have hkey : setMem "" s.filtersInMenu_ = false := by
      by_contra hcon
      simp only [Bool.not_eq_false] at hcon
      exact (hfil "" hcon).1 rfl
    have := hu i t ht h0 hnone
    rw [Nat.zero_add] at this
    rw [this]
    simp only [hclear, Option.map_some', withObjects,
      mapFromTriggerEvent_none s.filtersInMenu_ te "" hkey]

end TriggerObjectAnalyzer

/-- C3 (as stated, refuted): the template `HLT_Mu20` is an unversioned base name and
exactly one path of the menu, `HLT_Mu20_v3`, matches it. `TriggerAnalyzer::beginRun`
resolves it to that path, but `TriggerObjectAnalyzer::beginRun` (which ends without fault)
leaves it without entry in `triggerNamesInMenu_`: the template does not contain `"_v"`. -/
theorem C3_counterexample_base_name_without_v :
    Examples.menuMu20.triggerNames.filter (fun q => Examples.substringRx q "HLT_Mu20")
      = ["HLT_Mu20_v3"]
    ∧ mapFind (TriggerAnalyzer.beginRun Examples.substringRx
          (TriggerAnalyzer.State.init ["HLT_Mu20"] [])
          (Examples.runChangedA Examples.menuMu20)).state.hltNamesInMenu_ "HLT_Mu20"
        = some "HLT_Mu20_v3"
    ∧ (TriggerObjectAnalyzer.beginRun Examples.substringRx
          (TriggerObjectAnalyzer.State.init ["HLT_Mu20"])
          (Examples.runChanged Examples.menuMu20)).fault = none
    ∧ mapFind (TriggerObjectAnalyzer.beginRun Examples.substringRx
          (TriggerObjectAnalyzer.State.init ["HLT_Mu20"])
          (Examples.runChanged Examples.menuMu20)).state.triggerNamesInMenu_ "HLT_Mu20"
        = none := by
  decide

/-- C3 (as amended): let exactly one path `p` of the menu match the template `t`.  After a
rebuild, `TriggerAnalyzer::beginRun` has stored `p` for `t` in `hltNamesInMenu_`.  After a
rebuild that ends without fault, `TriggerObjectAnalyzer::beginRun` has stored `p` for `t`
in `triggerNamesInMenu_` when `t` does not start with `hlt` and contains `"_v"`, and has
stored nothing for `t` otherwise. -/
theorem C3_unique_match_is_resolved (rx : String → String → Bool) (t p : String)
    (sA : TriggerAnalyzer.State) (rA : TriggerAnalyzer.RunStart)
    (sO : TriggerObjectAnalyzer.State) (rO : TriggerObjectAnalyzer.RunStart)
    (hA1 : rA.initOk = true) (hA2 : rA.hltMenuChanged = true)
    (hO1 : rO.initOk = true) (hO2 : rO.hltMenuChanged = true)
    (htA : t ∈ (TriggerAnalyzer.beginRun rx sA rA).state.hltNames_)
    (huA : rA.hltConfig.triggerNames.filter (fun q => rx q t) = [p])
    (htO : t ∈ (TriggerObjectAnalyzer.beginRun rx sO rO).state.triggerNames_)
    (huO : rO.menu.triggerNames.filter (fun q => rx q t) = [p])
    (hdone : (TriggerObjectAnalyzer.beginRun rx sO rO).fault = none) :
    mapFind (TriggerAnalyzer.beginRun rx sA rA).state.hltNamesInMenu_ t = some p
    ∧ (rfind0 t "hlt" ≠ 0 → rfind t "_v" ≠ npos →
        mapFind (TriggerObjectAnalyzer.beginRun rx sO rO).state.triggerNamesInMenu_ t = some p)
    ∧ (rfind0 t "hlt" = 0 ∨ rfind t "_v" = npos →
        mapFind (TriggerObjectAnalyzer.beginRun rx sO rO).state.triggerNamesInMenu_ t = none) := by
  obtain ⟨-, -, hn, -, hm, -⟩ := TriggerAnalyzer.beginRun_changed_fields rx sA rA hA1 hA2
  have hd := TriggerObjectAnalyzer.outcome_of_fault_none _ hdone
  obtain ⟨-, -, -, -, hl⟩ := TriggerObjectAnalyzer.beginRun_done rx sO _ rO hO1 hO2 hd
  refine ⟨?_, ?_, ?_⟩
  · rw [hn] at htA
    rw [hm, TriggerAnalyzer.mapFind_resolveHlt rx _ _ t htA]
    exact find?_of_filter_eq_singleton _ _ _ huA
  · intro hh hv
    rw [hl t, if_pos ⟨htO, hh, hv⟩]
    exact find?_of_filter_eq_singleton _ _ _ huO
  · intro hor
    rw [hl t, if_neg]
    rintro ⟨-, hh, hv⟩
    rcases hor with h | h
    · exact hh h
    · exact hv h

/-- C3 (as amended) at a concrete input: exactly one path, `HLT_Mu20_v3`, matches the
template `HLT_Mu20_v`, and both plugins resolve the template to it. -/
theorem C3_unique_match_is_resolved_witness :
    mapFind (TriggerAnalyzer.beginRun Examples.substringRx
          (TriggerAnalyzer.State.init ["HLT_Mu20_v"] [])
          (Examples.runChangedA Examples.menuMu20)).state.hltNamesInMenu_ "HLT_Mu20_v"
        = some "HLT_Mu20_v3"
    ∧ mapFind (TriggerObjectAnalyzer.beginRun Examples.substringRx
          (TriggerObjectAnalyzer.State.init ["HLT_Mu20_v"])
          (Examples.runChanged Examples.menuMu20)).state.triggerNamesInMenu_ "HLT_Mu20_v"
        = some "HLT_Mu20_v3" :=
  have h := C3_unique_match_is_resolved Examples.substringRx "HLT_Mu20_v" "HLT_Mu20_v3"
    (TriggerAnalyzer.State.init ["HLT_Mu20_v"] []) (Examples.runChangedA Examples.menuMu20)
    (TriggerObjectAnalyzer.State.init ["HLT_Mu20_v"]) (Examples.runChanged Examples.menuMu20)
    rfl rfl rfl rfl (by decide) (by decide) (by decide) (by decide) (by decide)
  ⟨h.1, h.2.1 (by decide) (by decide)⟩

/-- C7 (code defect): an unresolved template does not always get an empty record.  The
template `hltFoo` is a filter-style name outside of the menu's filter set, and the rebuild
enters it nowhere; on an event whose only object source is the object list, an object that
carries the filter label `hltFoo` is nevertheless copied into the record of `hltFoo`. -/
theorem C7_unresolved_filter_template_gets_objects :
    setMem "hltFoo" (extractFilters Examples.menuMu20) = false
    ∧ (TriggerObjectAnalyzer.beginRun Examples.substringRx
        (TriggerObjectAnalyzer.State.init ["hltFoo"])
        (Examples.runChanged Examples.menuMu20)).fault = none
    ∧ (TriggerObjectAnalyzer.beginRun Examples.substringRx
        (TriggerObjectAnalyzer.State.init ["hltFoo"])
        (Examples.runChanged Examples.menuMu20)).state.filtersInMenu_ = []
    ∧ (TriggerObjectAnalyzer.analyze
        (TriggerObjectAnalyzer.beginRun Examples.substringRx
          (TriggerObjectAnalyzer.State.init ["hltFoo"])
          (Examples.runChanged Examples.menuMu20)).state Examples.evObjectList).fault = none
    ∧ (TriggerObjectAnalyzer.analyze
        (TriggerObjectAnalyzer.beginRun Examples.substringRx
          (TriggerObjectAnalyzer.State.init ["hltFoo"])
          (Examples.runChanged Examples.menuMu20)).state Examples.evObjectList).state.triggerInfo_
      = [TriggerObjectAnalyzer.OBJ.ofObjects [Examples.objX]] := by
  decide

/-- C8 (as stated, refuted): after a rebuild against a menu without paths, an event with
neither object source is passed over by `analyze` without any fault; and in a state with
paths, an event that holds no product at all ends with the fault of the missing trigger
results, not with "Trigger object collection not found". -/
theorem C8_counterexample_no_source_no_collection_fault :
    ¬ ((TriggerObjectAnalyzer.analyze
          (TriggerObjectAnalyzer.beginRun Examples.substringRx
            (TriggerObjectAnalyzer.State.init ["HLT_Mu20_v"])
            (Examples.runChanged Examples.menuNoPath)).state Examples.evNoSource).fault
          = some Fault.collectionNotFound
        ↔ (Examples.evNoSource.triggerEvent.isNone = true
            ∧ Examples.evNoSource.triggerObjects.isNone = true))
    ∧ (TriggerObjectAnalyzer.analyze
          (TriggerObjectAnalyzer.beginRun Examples.substringRx
            (TriggerObjectAnalyzer.State.init ["HLT_Mu20_v"])
            (Examples.runChanged Examples.menuNoPath)).state Examples.evNoSource).fault = none
    ∧ (TriggerObjectAnalyzer.analyze
          (TriggerObjectAnalyzer.beginRun Examples.substringRx
            (TriggerObjectAnalyzer.State.init ["HLT_Mu20_v"])
            (Examples.runChanged Examples.menuMu20)).state Examples.evNoProduct).fault
        = some Fault.productNotFound := by
  decide

/-- C8 (as amended) at a concrete input: after a rebuild against `menuMu20`, an event with
trigger results and neither object source ends with the fault, the member data being as
before the event. -/
theorem C8_collection_fault_iff_no_source_witness :
    (TriggerObjectAnalyzer.analyze
        (TriggerObjectAnalyzer.beginRun Examples.substringRx
          (TriggerObjectAnalyzer.State.init ["HLT_Mu20_v"])
          (Examples.runChanged Examples.menuMu20)).state Examples.evNoSource).fault
      = some Fault.collectionNotFound
    ∧ (TriggerObjectAnalyzer.analyze
        (TriggerObjectAnalyzer.beginRun Examples.substringRx
          (TriggerObjectAnalyzer.State.init ["HLT_Mu20_v"])
          (Examples.runChanged Examples.menuMu20)).state Examples.evNoSource).state
      = (TriggerObjectAnalyzer.beginRun Examples.substringRx
          (TriggerObjectAnalyzer.State.init ["HLT_Mu20_v"])
          (Examples.runChanged Examples.menuMu20)).state :=
  have h := (C8_collection_fault_iff_no_source
    (TriggerObjectAnalyzer.beginRun Examples.substringRx
      (TriggerObjectAnalyzer.State.init ["HLT_Mu20_v"])
      (Examples.runChanged Examples.menuMu20)).state Examples.evNoSource).2 (by decide) rfl
  ⟨h.1.mpr ⟨rfl, rfl⟩, h.2 (h.1.mpr ⟨rfl, rfl⟩)⟩

/-! ## Decision mode: records after an event -/

namespace TriggerAnalyzer

theorem fillHltOne_done (ev : Event) (tr : TriggerResults) (s : State) (i : Nat) (t : String)
    (h : s.hltNamesInMenu_ = [] ∨ i < s.hltInfo_.length) :
    ∃ s1, fillHltOne ev tr s i t = .done s1
      ∧ s1 = { s with hltInfo_ := s1.hltInfo_ }
      ∧ s1.hltInfo_.length = s.hltInfo_.length
      ∧ (∀ k, k ≠ i → s1.hltInfo_[k]? = s.hltInfo_[k]?)
      ∧ (mapFind s.hltNamesInMenu_ t = none → s1.hltInfo_ = s.hltInfo_) := by
  unfold fillHltOne
  cases hm : mapFind s.hltNamesInMenu_ t with
  | none => exact ⟨s, rfl, rfl, rfl, fun _ _ => rfl, fun _ => rfl⟩
  | some p =>
    have hi : i < s.hltInfo_.length := by
      rcases h with h | h
      · rw [h] at hm; simp [mapFind] at hm
      · exact h
    obtain ⟨w, hw⟩ := vecSet_isSome s.hltInfo_ i
      (tr.accept (s.hltConfig.triggerIndex p),
        if ev.pCol ≥ 0 then ev.prescaleValue ev.pCol p else -1) hi
    dsimp only
    rw [hw]
    refine ⟨_, rfl, rfl, vecSet_length _ _ _ _ hw, ?_, fun h => by simp at h⟩
    intro k hk
    have := vecSet_get _ _ k _ _ hw
    simpa [hk] using this

theorem fillHltLoop_done (ev : Event) (tr : TriggerResults) (names : List String) (i : Nat)
    (s : State) (h : s.hltNamesInMenu_ = [] ∨ i + names.length ≤ s.hltInfo_.length) :
    ∃ s1, fillHltLoop ev tr names i s = .done s1
      ∧ s1 = { s with hltInfo_ := s1.hltInfo_ }
      ∧ s1.hltInfo_.length = s.hltInfo_.length
      ∧ (∀ k, k < i → s1.hltInfo_[k]? = s.hltInfo_[k]?)
      ∧ (∀ j t, names[j]? = some t → mapFind s.hltNamesInMenu_ t = none →
          s1.hltInfo_[i + j]? = s.hltInfo_[i + j]?) := by
  induction names generalizing i s with
  | nil =>
    refine ⟨s, rfl, rfl, rfl, fun _ _ => rfl, ?_⟩
    intro j t hj
    simp at hj
  | cons t0 rest ih =>
    have h0 : s.hltNamesInMenu_ = [] ∨ i < s.hltInfo_.length := by
      rcases h with h | h
      · exact Or.inl h
      · simp only [List.length_cons] at h; exact Or.inr (by omega)
    obtain ⟨s1, e1, f1, l1, k1, n1⟩ := fillHltOne_done ev tr s i t0 h0
    have hm1 : s1.hltNamesInMenu_ = s.hltNamesInMenu_ := by rw [f1]
    have h1 : s1.hltNamesInMenu_ = [] ∨ (i + 1) + rest.length ≤ s1.hltInfo_.length := by
      rcases h with h | h
      · exact Or.inl (hm1.trans h)
      · simp only [List.length_cons] at h; exact Or.inr (by omega)
    obtain ⟨s2, e2, f2, l2, k2, n2⟩ := ih (i + 1) s1 h1
    refine ⟨s2, by simp [fillHltLoop, e1, e2], ?_, l2.trans l1, ?_, ?_⟩
    · rw [f2, f1]
    · intro k hk
      rw [k2 k (by omega), k1 k (by omega)]
    · intro j t hj hn
      cases j with
      | zero =>
        simp only [List.getElem?_cons_zero, Option.some.injEq] at hj
        subst hj
        rw [Nat.add_zero, k2 i (by omega), n1 hn]
      | succ j =>
        simp only [List.getElem?_cons_succ] at hj
        have := n2 j t hj (by rw [hm1]; exact hn)
        rw [show i + (j + 1) = i + 1 + j by omega, this, k1 (i + 1 + j) (by omega)]

theorem fillL1tOne_done (ev : Event) (s : State) (i : Nat) (t : String)
    (h : s.l1TriggersInMenu_ = [] ∨ i < s.l1tInfo_.length) :
    ∃ s1, fillL1tOne ev s i t = .done s1
      ∧ s1 = { s with l1tInfo_ := s1.l1tInfo_, l1tAlgoMap_ := s1.l1tAlgoMap_ }
      ∧ s1.l1tInfo_.length = s.l1tInfo_.length
      ∧ (∀ k, k ≠ i → s1.l1tInfo_[k]? = s.l1tInfo_[k]?)
      ∧ (setMem t s.l1TriggersInMenu_ = false → s1.l1tInfo_ = s.l1tInfo_) := by
  unfold fillL1tOne
  by_cases hm : setMem t s.l1TriggersInMenu_ = true
  · have hi : i < s.l1tInfo_.length := by
      rcases h with h | h
      · rw [h] at hm; simp [setMem] at hm
      · exact h
    obtain ⟨w, hw⟩ := vecSet_isSome s.l1tInfo_ i
      (ev.l1tGlobalUtil.decisionsFinal (mapIndex L1TUtmAlgorithm.dflt s.l1tAlgoMap_ t).1.index,
        if ev.pCol ≥ 0 then
          ev.l1tGlobalUtil.prescales (mapIndex L1TUtmAlgorithm.dflt s.l1tAlgoMap_ t).1.index
        else -1) hi
    simp only [hm, Bool.not_true, Bool.false_eq_true, if_false]
    rw [hw]
    refine ⟨_, rfl, rfl, vecSet_length _ _ _ _ hw, ?_, fun h => absurd h (by simp)⟩
    intro k hk
    have := vecSet_get _ _ k _ _ hw
    simpa [hk] using this
  · simp only [Bool.not_eq_true] at hm
    simp only [hm, Bool.not_false, if_true]
    exact ⟨s, rfl, rfl, rfl, fun _ _ => rfl, fun _ => rfl⟩

theorem fillL1tLoop_done (ev : Event) (names : List String) (i : Nat)
    (s : State) (h : s.l1TriggersInMenu_ = [] ∨ i + names.length ≤ s.l1tInfo_.length) :
    ∃ s1, fillL1tLoop ev names i s = .done s1
      ∧ s1 = { s with l1tInfo_ := s1.l1tInfo_, l1tAlgoMap_ := s1.l1tAlgoMap_ }
      ∧ s1.l1tInfo_.length = s.l1tInfo_.length
      ∧ (∀ k, k < i → s1.l1tInfo_[k]? = s.l1tInfo_[k]?)
      ∧ (∀ j t, names[j]? = some t → setMem t s.l1TriggersInMenu_ = false →
          s1.l1tInfo_[i + j]? = s.l1tInfo_[i + j]?) := by
  induction names generalizing i s with
  | nil =>
    refine ⟨s, rfl, rfl, rfl, fun _ _ => rfl, ?_⟩
    intro j t hj
    simp at hj
  | cons t0 rest ih =>
    have h0 : s.l1TriggersInMenu_ = [] ∨ i < s.l1tInfo_.length := by
      rcases h with h | h
      · exact Or.inl h
      · simp only [List.length_cons] at h; exact Or.inr (by omega)
    obtain ⟨s1, e1, f1, l1, k1, n1⟩ := fillL1tOne_done ev s i t0 h0
    have hm1 : s1.l1TriggersInMenu_ = s.l1TriggersInMenu_ := by rw [f1]
    have h1 : s1.l1TriggersInMenu_ = [] ∨ (i + 1) + rest.length ≤ s1.l1tInfo_.length := by
      rcases h with h | h
      · exact Or.inl (hm1.trans h)
      · simp only [List.length_cons] at h; exact Or.inr (by omega)
    obtain ⟨s2, e2, f2, l2, k2, n2⟩ := ih (i + 1) s1 h1
    refine ⟨s2, by simp [fillL1tLoop, e1, e2], ?_, l2.trans l1, ?_, ?_⟩
    · rw [f2, f1]
    · intro k hk
      rw [k2 k (by omega), k1 k (by omega)]
    · intro j t hj hn
      cases j with
      | zero =>
        simp only [List.getElem?_cons_zero, Option.some.injEq] at hj
        subst hj
        rw [Nat.add_zero, k2 i (by omega), n1 hn]
      | succ j =>
        simp only [List.getElem?_cons_succ] at hj
        have := n2 j t hj (by rw [hm1]; exact hn)
        rw [show i + (j + 1) = i + 1 + j by omega, this, k1 (i + 1 + j) (by omega)]

theorem analyzeHlt_done (s : State) (ev : Event)
    (h : s.hltNamesInMenu_ = [] ∨ s.hltInfo_.length = s.hltNames_.length) :
    ∃ s1, analyzeHlt s ev = .done s1
      ∧ s1 = { s with hltInfo_ := s1.hltInfo_ }
      ∧ s1.hltInfo_.length = s.hltInfo_.length
      ∧ (∀ i t, s.hltNames_[i]? = some t → mapFind s.hltNamesInMenu_ t = none →
          i < s.hltInfo_.length → s1.hltInfo_[i]? = some (false, -1)) := by
  have hclear : ∀ i, i < s.hltInfo_.length →
      (s.hltInfo_.map (fun _ => ((false, -1) : Bool × Int)))[i]? = some (false, -1) := by
    intro i hi
    rw [List.getElem?_map, List.getElem?_eq_getElem hi]; rfl
  have hbase : ∃ s1, (Outcome.done { s with hltInfo_ := s.hltInfo_.map (fun _ => (false, -1)) }
        : Outcome State) = .done s1
      ∧ s1 = { s with hltInfo_ := s1.hltInfo_ }
      ∧ s1.hltInfo_.length = s.hltInfo_.length
      ∧ (∀ i t, s.hltNames_[i]? = some t → mapFind s.hltNamesInMenu_ t = none →
          i < s.hltInfo_.length → s1.hltInfo_[i]? = some (false, -1)) :=
    ⟨_, rfl, rfl, by simp, fun i _ _ _ hi => hclear i hi⟩
  unfold analyzeHlt
  cases hr : ev.hltResults with
  | none => exact hbase
  | some tr =>
    by_cases hsz : tr.size > 0
    · simp only [hsz, if_true]
      have h' : ({ s with hltInfo_ := s.hltInfo_.map (fun _ => ((false, -1) : Bool × Int)) } : State).hltNamesInMenu_ = []
          ∨ 0 + s.hltNames_.length
            ≤ ({ s with hltInfo_ := s.hltInfo_.map (fun _ => ((false, -1) : Bool × Int)) } : State).hltInfo_.length := by
        rcases h with h | h
        · exact Or.inl h
        · exact Or.inr (by simp [h])
      obtain ⟨s1, e, f, l, -, n⟩ := fillHltLoop_done ev tr s.hltNames_ 0 _ h'
      refine ⟨s1, e, ?_, by simpa using l, ?_⟩
      · rw [f]
      · intro i t ht hn hi
        have := n i t ht hn
        rw [Nat.zero_add] at this
        rw [this]
        exact hclear i hi
    · simp only [hsz, if_false]
      exact hbase

theorem analyzeL1t_done (s : State) (ev : Event)
    (h : s.l1TriggersInMenu_ = [] ∨ s.l1tInfo_.length = s.l1tNames_.length) :
    ∃ s1, analyzeL1t s ev = .done s1
      ∧ s1 = { s with l1tInfo_ := s1.l1tInfo_, l1tAlgoMap_ := s1.l1tAlgoMap_ }
      ∧ s1.l1tInfo_.length = s.l1tInfo_.length
      ∧ (∀ i t, s.l1tNames_[i]? = some t → setMem t s.l1TriggersInMenu_ = false →
          i < s.l1tInfo_.length → s1.l1tInfo_[i]? = some (false, -1)) := by
  have hclear : ∀ i, i < s.l1tInfo_.length →
      (s.l1tInfo_.map (fun _ => ((false, -1) : Bool × Int)))[i]? = some (false, -1) := by
    intro i hi
    rw [List.getElem?_map, List.getElem?_eq_getElem hi]; rfl
  unfold analyzeL1t
  by_cases hv : (ev.l1tGlobalUtil.valid && !(ev.l1tGlobalUtil.decisionsFinalSize == 0)) = true
  · simp only [hv, if_true]
    have h' : ({ s with l1tInfo_ := s.l1tInfo_.map (fun _ => ((false, -1) : Bool × Int)) } : State).l1TriggersInMenu_ = []
        ∨ 0 + s.l1tNames_.length
          ≤ ({ s with l1tInfo_ := s.l1tInfo_.map (fun _ => ((false, -1) : Bool × Int)) } : State).l1tInfo_.length := by
      rcases h with h | h
      · exact Or.inl h
      · exact Or.inr (by simp [h])
    obtain ⟨s1, e, f, l, -, n⟩ := fillL1tLoop_done ev s.l1tNames_ 0 _ h'
    refine ⟨s1, e, ?_, by simpa using l, ?_⟩
    · rw [f]
    · intro i t ht hn hi
      have := n i t ht hn
      rw [Nat.zero_add] at this
      rw [this]
      exact hclear i hi
  · simp only [hv, if_false]
    exact ⟨_, rfl, rfl, by simp, fun i _ _ _ hi => hclear i hi⟩

/-- In a state that satisfies the invariant, `analyze` returns normally: no record is
written outside of its vector; tables and lengths are kept, and the record of every
template without entry in the resolved table is `(false, -1)`. -/
theorem analyze_done (s : State) (ev : Event) (hs : Inv s) :
    ∃ s1, analyze s ev = .done s1 ∧ Frame s s1
      ∧ (∀ i t, s.hltNames_[i]? = some t → mapFind s.hltNamesInMenu_ t = none →
          i < s.hltInfo_.length → s1.hltInfo_[i]? = some (false, -1))
      ∧ (∀ i t, s.l1tNames_[i]? = some t → setMem t s.l1TriggersInMenu_ = false →
          i < s.l1tInfo_.length → s1.l1tInfo_[i]? = some (false, -1)) := by
  have hH : s.hltNamesInMenu_ = [] ∨ s.hltInfo_.length = s.hltNames_.length := by
    rcases hs.1 with h | ⟨-, h⟩
    · exact Or.inr h
    · exact Or.inl h
  obtain ⟨s1, e1, f1, l1, r1⟩ := analyzeHlt_done s ev hH
  have hL : s1.l1TriggersInMenu_ = [] ∨ s1.l1tInfo_.length = s1.l1tNames_.length := by
    rw [f1]
    rcases hs.2 with h | ⟨-, h⟩
    · exact Or.inr h
    · exact Or.inl h
  obtain ⟨s2, e2, f2, l2, r2⟩ := analyzeL1t_done s1 ev hL
  have a1 : s1.hltNames_ = s.hltNames_ := by rw [f1]
  have a2 : s1.hltNamesInMenu_ = s.hltNamesInMenu_ := by rw [f1]
  have a3 : s1.l1tNames_ = s.l1tNames_ := by rw [f1]
  have a4 : s1.l1TriggersInMenu_ = s.l1TriggersInMenu_ := by rw [f1]
  have a5 : s1.l1tInfo_ = s.l1tInfo_ := by rw [f1]
  have b1 : s2.hltNames_ = s1.hltNames_ := by rw [f2]
  have b2 : s2.hltNamesInMenu_ = s1.hltNamesInMenu_ := by rw [f2]
  have b3 : s2.l1tNames_ = s1.l1tNames_ := by rw [f2]
  have b4 : s2.l1TriggersInMenu_ = s1.l1TriggersInMenu_ := by rw [f2]
  have b5 : s2.hltInfo_ = s1.hltInfo_ := by rw [f2]
  refine ⟨s2, by simp [analyze, e1, e2], ?_, ?_, ?_⟩
  · exact ⟨b1.trans a1, b2.trans a2, by rw [b5]; exact l1, b3.trans a3, b4.trans a4,
      by rw [l2, a5]⟩
  · intro i t ht hn hi
    rw [b5]
    exact r1 i t ht hn hi
  · intro i t ht hn hi
    exact r2 i t (by rw [a3]; exact ht) (by rw [a4]; exact hn) (by rw [a5]; exact hi)

theorem beginRun_sized (rx : String → String → Bool) (s : State) (r : RunStart)
    (hs : Inv s) (h1 : r.initOk = true) (h2 : r.hltMenuChanged = true) :
    Sized (beginRun rx s r).state := by
  obtain ⟨-, -, hn, hi, -, -, hln, hli, -⟩ := beginRun_changed_fields rx s r h1 h2
  constructor
  · rw [hi, hn, initHlt_hltInfo_length]
    cases he : s.hltInfo_ with
    | nil => simp
    | cons a rest =>
      have hlen : s.hltInfo_.length = s.hltNames_.length := by
        rcases hs.1 with h | ⟨h, -⟩
        · exact h
        · rw [he] at h; simp at h
      rw [initHlt_hltNames]
      simp [he, ← hlen]
  · rw [hli, hln, initL1t_l1tInfo_length]
    cases he : s.l1tInfo_ with
    | nil => simp [he]
    | cons a rest =>
      have hlen : s.l1tInfo_.length = s.l1tNames_.length := by
        rcases hs.2 with h | ⟨h, -⟩
        · exact h
        · rw [he] at h; simp at h
      rw [initL1t_l1tNames]
      simp [he, ← hlen]

theorem Sized.inv {s : State} (h : Sized s) : Inv s := ⟨Or.inl h.1, Or.inl h.2⟩

/-- One call keeps the invariant and writes no record outside of its vector. -/
theorem step_inv (rx : String → String → Bool) (s : State) (x : Input) (hs : Inv s) :
    Inv (step rx s x).state ∧ (step rx s x).fault ≠ some Fault.outOfRange := by
  cases x with
  | runStart r =>
    by_cases h1 : r.initOk = true
    · by_cases h2 : r.hltMenuChanged = true
      · have hf := (beginRun_changed_fields rx s r h1 h2).1
        exact ⟨(beginRun_sized rx s r hs h1 h2).inv, by simp [step, hf]⟩
      · have : beginRun rx s r = .done s := by simp [beginRun, h1, h2]
        simp [step, this, Outcome.state, Outcome.fault, hs]
    · have : beginRun rx s r = .threw Fault.initFailed s := by simp [beginRun, h1]
      simp [step, this, Outcome.state, Outcome.fault, hs]
  | event ev =>
    obtain ⟨s1, e, ⟨a, b, c, d, e', f⟩, -, -⟩ := analyze_done s ev hs
    simp only [step, e, Outcome.state, Outcome.fault]
    refine ⟨⟨?_, ?_⟩, by simp⟩
    · rcases hs.1 with h | ⟨h, h'⟩
      · exact Or.inl (by rw [c, a]; exact h)
      · refine Or.inr ⟨?_, by rw [b]; exact h'⟩
        exact List.eq_nil_of_length_eq_zero (by rw [c, h]; rfl)
    · rcases hs.2 with h | ⟨h, h'⟩
      · exact Or.inl (by rw [f, d]; exact h)
      · refine Or.inr ⟨?_, by rw [e']; exact h'⟩
        exact List.eq_nil_of_length_eq_zero (by rw [f, h]; rfl)

theorem init_inv (hltNames l1tNames : List String) : Inv (State.init hltNames l1tNames) :=
  ⟨Or.inr ⟨rfl, rfl⟩, Or.inr ⟨rfl, rfl⟩⟩

/-- Every sequence of calls keeps the invariant and writes no record outside of its
vector. -/
theorem run_inv (rx : String → String → Bool) (inputs : List Input) (s : State) (hs : Inv s) :
    Inv (run rx s inputs).state ∧ (run rx s inputs).fault ≠ some Fault.outOfRange := by
  induction inputs generalizing s with
  | nil => simp [run, Outcome.state, Outcome.fault, hs]
  | cons x rest ih =>
    have hx := step_inv rx s x hs
    unfold run
    cases e : step rx s x with
    | done s1 =>
      rw [e] at hx
      exact ih s1 hx.1
    | threw f s1 =>
      rw [e] at hx
      exact hx

/-- Once a record vector is non-empty, one call changes neither its length nor the
template list of the tier. -/
theorem step_keeps (rx : String → String → Bool) (s : State) (x : Input) (hs : Inv s) :
    (s.hltInfo_ ≠ [] → (step rx s x).state.hltInfo_.length = s.hltInfo_.length
        ∧ (step rx s x).state.hltNames_ = s.hltNames_)
    ∧ (s.l1tInfo_ ≠ [] → (step rx s x).state.l1tInfo_.length = s.l1tInfo_.length
        ∧ (step rx s x).state.l1tNames_ = s.l1tNames_) := by
  cases x with
  | runStart r =>
    by_cases h1 : r.initOk = true
    · by_cases h2 : r.hltMenuChanged = true
      · obtain ⟨-, -, hn, hi, -, -, hln, hli, -⟩ := beginRun_changed_fields rx s r h1 h2
        simp only [step]
        constructor
        · intro hne
          rw [hn, hi]
          have : initHlt s r.hltConfig.triggerNames = s := by
            unfold initHlt
            cases he : s.hltInfo_ with
            | nil => exact absurd he hne
            | cons a rest => simp
          rw [this]
          exact ⟨rfl, rfl⟩
        · intro hne
          rw [hln, hli]
          have : initL1t { s with l1tAlgoMap_ := r.l1tAlgoMap } = { s with l1tAlgoMap_ := r.l1tAlgoMap } := by
            unfold initL1t
            cases he : s.l1tInfo_ with
            | nil => exact absurd he hne
            | cons a rest => simp [he]
          rw [this]
          exact ⟨rfl, rfl⟩
      · have : beginRun rx s r = .done s := by simp [beginRun, h1, h2]
        simp [step, this, Outcome.state]
    · have : beginRun rx s r = .threw Fault.initFailed s := by simp [beginRun, h1]
      simp [step, this, Outcome.state]
  | event ev =>
    obtain ⟨s1, e, ⟨a, b, c, d, e', f⟩, -, -⟩ := analyze_done s ev hs
    simp only [step, e, Outcome.state]
    exact ⟨fun _ => ⟨c, a⟩, fun _ => ⟨f, d⟩⟩

/-- Once a record vector is non-empty, no sequence of calls changes its length or the
template list of the tier. -/
theorem run_keeps (rx : String → String → Bool) (inputs : List Input) (s : State) (hs : Inv s) :
    (s.hltInfo_ ≠ [] → (run rx s inputs).state.hltInfo_.length = s.hltInfo_.length
        ∧ (run rx s inputs).state.hltNames_ = s.hltNames_)
    ∧ (s.l1tInfo_ ≠ [] → (run rx s inputs).state.l1tInfo_.length = s.l1tInfo_.length
        ∧ (run rx s inputs).state.l1tNames_ = s.l1tNames_) := by
  induction inputs generalizing s with
  | nil => simp [run, Outcome.state]
  | cons x rest ih =>
    have hx := step_inv rx s x hs
    have hk := step_keeps rx s x hs
    unfold run
    cases e : step rx s x with
    | done s1 =>
      rw [e] at hx hk
      simp only [Outcome.state] at hx hk
      have ih1 := ih s1 hx.1
      constructor
      · intro hne
        obtain ⟨l, n⟩ := hk.1 hne
        have hne1 : s1.hltInfo_ ≠ [] := by
          intro h0; rw [h0] at l
          exact hne (List.eq_nil_of_length_eq_zero l.symm)
        obtain ⟨l', n'⟩ := ih1.1 hne1
        exact ⟨l'.trans l, n'.trans n⟩
      · intro hne
        obtain ⟨l, n⟩ := hk.2 hne
        have hne1 : s1.l1tInfo_ ≠ [] := by
          intro h0; rw [h0] at l
          exact hne (List.eq_nil_of_length_eq_zero l.symm)
        obtain ⟨l', n'⟩ := ih1.2 hne1
        exact ⟨l'.trans l, n'.trans n⟩
    | threw f s1 =>
      rw [e] at hk
      exact hk

theorem run_append (rx : String → String → Bool) (xs ys : List Input) (s : State) :
    run rx s (xs ++ ys)
      = match run rx s xs with
        | .done s1 => run rx s1 ys
        | .threw f s1 => .threw f s1 := by
  induction xs generalizing s with
  | nil => simp [run]
  | cons x rest ih =>
    simp only [List.cons_append, run]
    cases step rx s x with
    | done s1 => exact ih s1
    | threw f s1 => rfl

theorem frame_trans {s s1 s2 : State} (h1 : Frame s s1) (h2 : Frame s1 s2) : Frame s s2 := by
  obtain ⟨a1, b1, c1, d1, e1, f1⟩ := h1
  obtain ⟨a2, b2, c2, d2, e2, f2⟩ := h2
  exact ⟨a2.trans a1, b2.trans b1, c2.trans c1, d2.trans d1, e2.trans e1, f2.trans f1⟩

/-- Calls that are not rebuilds return normally and keep tables and lengths. -/
theorem run_noRebuild (rx : String → String → Bool) (xs : List Input) (s : State)
    (hs : Sized s) (hx : ∀ x ∈ xs, noRebuild x = true) :
    ∃ s1, run rx s xs = .done s1 ∧ Frame s s1 ∧ Sized s1 := by
  induction xs generalizing s with
  | nil => exact ⟨s, rfl, ⟨rfl, rfl, rfl, rfl, rfl, rfl⟩, hs⟩
  | cons x rest ih =>
    have h0 : noRebuild x = true := hx x (List.mem_cons_self _ _)
    have hstep : ∃ s1, step rx s x = .done s1 ∧ Frame s s1 ∧ Sized s1 := by
      cases x with
      | runStart r =>
        simp only [noRebuild, Bool.and_eq_true, Bool.not_eq_true'] at h0
        refine ⟨s, ?_, ⟨rfl, rfl, rfl, rfl, rfl, rfl⟩, hs⟩
        simp [step, beginRun, h0.1, h0.2]
      | event ev =>
        obtain ⟨s1, e, fr, -, -⟩ := analyze_done s ev hs.inv
        refine ⟨s1, e, fr, ?_⟩
        obtain ⟨a, b, c, d, e', f⟩ := fr
        exact ⟨by rw [c, a]; exact hs.1, by rw [f, d]; exact hs.2⟩
    obtain ⟨s1, e1, fr1, sz1⟩ := hstep
    obtain ⟨s2, e2, fr2, sz2⟩ := ih s1 sz1 (fun y hy => hx y (List.mem_cons_of_mem _ hy))
    exact ⟨s2, by simp [run, e1, e2], frame_trans fr1 fr2, sz2⟩

end TriggerAnalyzer

/-- C4: decision mode.  Let the plugin be in any state reached from its construction, and
let a rebuild take place (successful initialisation, changed menu).  The rebuild raises no
fault.  For a template of the HLT tier that no path of the menu matches, and for a
template of the L1T tier that is no key of the algorithm table, the record at the
template's index is `(false, -1)` after every event processed before the next rebuild
(events and run starts without menu change may come in between), whatever the event holds;
and no fault is raised. -/
theorem C4_unresolved_template_record_is_default (rx : String → String → Bool)
    (hltNames0 l1tNames0 : List String) (hist : List TriggerAnalyzer.Input)
    (s0 : TriggerAnalyzer.State) (r : TriggerAnalyzer.RunStart)
    (hreach : TriggerAnalyzer.run rx (TriggerAnalyzer.State.init hltNames0 l1tNames0) hist
      = .done s0)
    (h1 : r.initOk = true) (h2 : r.hltMenuChanged = true)
    (between : List TriggerAnalyzer.Input)
    (hb : ∀ x ∈ between, TriggerAnalyzer.noRebuild x = true)
    (ev : TriggerAnalyzer.Event) (i : Nat) (t : String) :
    (TriggerAnalyzer.beginRun rx s0 r).fault = none
    ∧ ((TriggerAnalyzer.beginRun rx s0 r).state.hltNames_[i]? = some t →
        (∀ p ∈ r.hltConfig.triggerNames, rx p t = false) →
        (TriggerAnalyzer.run rx (TriggerAnalyzer.beginRun rx s0 r).state
            (between ++ [.event ev])).fault = none
        ∧ (TriggerAnalyzer.run rx (TriggerAnalyzer.beginRun rx s0 r).state
            (between ++ [.event ev])).state.hltInfo_[i]? = some (false, -1))
    ∧ ((TriggerAnalyzer.beginRun rx s0 r).state.l1tNames_[i]? = some t →
        mapFind r.l1tAlgoMap t = none →
        (TriggerAnalyzer.run rx (TriggerAnalyzer.beginRun rx s0 r).state
            (between ++ [.event ev])).fault = none
        ∧ (TriggerAnalyzer.run rx (TriggerAnalyzer.beginRun rx s0 r).state
            (between ++ [.event ev])).state.l1tInfo_[i]? = some (false, -1)) := by
  have hinv0 : TriggerAnalyzer.Inv s0 := by
    have := (TriggerAnalyzer.run_inv rx hist _ (TriggerAnalyzer.init_inv hltNames0 l1tNames0)).1
    rw [hreach] at this
    exact this
  obtain ⟨hf, -, hn, -, hm, -, hln, -, hlt⟩ :=
    TriggerAnalyzer.beginRun_changed_fields rx s0 r h1 h2
  have hsz := TriggerAnalyzer.beginRun_sized rx s0 r hinv0 h1 h2
  obtain ⟨s1, e1, ⟨a, b, c, d, e', f⟩, sz1⟩ :=
    TriggerAnalyzer.run_noRebuild rx between _ hsz hb
  obtain ⟨s2, e2, -, rH, rL⟩ := TriggerAnalyzer.analyze_done s1 ev sz1.inv
  have hrun : TriggerAnalyzer.run rx (TriggerAnalyzer.beginRun rx s0 r).state
      (between ++ [.event ev]) = .done s2 := by
    rw [TriggerAnalyzer.run_append, e1]
    simp [TriggerAnalyzer.run, TriggerAnalyzer.step, e2]
  refine ⟨hf, ?_, ?_⟩
  · intro ht hno
    rw [hrun]
    refine ⟨rfl, ?_⟩
    have hmem : t ∈ (TriggerAnalyzer.beginRun rx s0 r).state.hltNames_ :=
      List.getElem?_mem ht
    have hnone : mapFind s1.hltNamesInMenu_ t = none := by
      rw [b, hm, TriggerAnalyzer.mapFind_resolveHlt rx _ _ t (by rw [← hn]; exact hmem),
        List.find?_eq_none]
      intro p hp
      simp [hno p hp]
    have hi : i < s1.hltInfo_.length := by
      rw [sz1.1, a]
      exact (List.getElem?_eq_some_iff.mp ht).1
    exact rH i t (by rw [a]; exact ht) hnone hi
  · intro ht hno
    rw [hrun]
    refine ⟨rfl, ?_⟩
    have hnone : setMem t s1.l1TriggersInMenu_ = false := by
      rw [e', hlt, TriggerAnalyzer.setMem_resolveL1t, hno]
      simp
    have hi : i < s1.l1tInfo_.length := by
      rw [sz1.2, d]
      exact (List.getElem?_eq_some_iff.mp ht).1
    exact rL i t (by rw [d]; exact ht) hnone hi

/-- C4 at a concrete input: the templates `HLT_Absent_v` and `L1_Absent` are not in the
menu; after an event, a run start without menu change and a further event in which every
path and algorithm fired, their records are `(false, -1)`. -/
theorem C4_unresolved_template_record_is_default_witness :
    (TriggerAnalyzer.run Examples.substringRx
        (TriggerAnalyzer.beginRun Examples.substringRx
          (TriggerAnalyzer.State.init ["HLT_Mu20_v", "HLT_Absent_v"] ["L1_ZeroBias", "L1_Absent"])
          (Examples.runChangedA Examples.menuMu20)).state
        ([.event Examples.evAllFired, .runStart (Examples.runUnchangedA Examples.menuTwoVersions)]
          ++ [.event Examples.evAllFired])).state.hltInfo_[1]? = some (false, -1)
    ∧ (TriggerAnalyzer.run Examples.substringRx
        (TriggerAnalyzer.beginRun Examples.substringRx
          (TriggerAnalyzer.State.init ["HLT_Mu20_v", "HLT_Absent_v"] ["L1_ZeroBias", "L1_Absent"])
          (Examples.runChangedA Examples.menuMu20)).state
        ([.event Examples.evAllFired, .runStart (Examples.runUnchangedA Examples.menuTwoVersions)]
          ++ [.event Examples.evAllFired])).state.l1tInfo_[1]? = some (false, -1) :=
  have hb : ∀ x ∈ [TriggerAnalyzer.Input.event Examples.evAllFired,
      TriggerAnalyzer.Input.runStart (Examples.runUnchangedA Examples.menuTwoVersions)],
      TriggerAnalyzer.noRebuild x = true := by
    intro x hx
    simp only [List.mem_cons, List.mem_singleton, List.not_mem_nil, or_false] at hx
    rcases hx with rfl | rfl <;> rfl
  ⟨((C4_unresolved_template_record_is_default Examples.substringRx
      ["HLT_Mu20_v", "HLT_Absent_v"] ["L1_ZeroBias", "L1_Absent"] [] _
      (Examples.runChangedA Examples.menuMu20) rfl rfl rfl _ hb Examples.evAllFired 1
      "HLT_Absent_v").2.1 (by decide) (by decide)).2,
   ((C4_unresolved_template_record_is_default Examples.substringRx
      ["HLT_Mu20_v", "HLT_Absent_v"] ["L1_ZeroBias", "L1_Absent"] [] _
      (Examples.runChangedA Examples.menuMu20) rfl rfl rfl _ hb Examples.evAllFired 1
      "L1_Absent").2.2 (by decide) (by decide)).2⟩

/-- C10: index safety of `TriggerAnalyzer`.  For every configuration and every sequence of
run starts and events, no call writes a record outside of its vector; in the state reached,
per tier, the resolved table is empty or the record vector is as long as the template
list; and once the record vector of a tier is non-empty, no later sequence of calls changes
its length or the template list of the tier. -/
theorem C10_record_writes_in_bounds (rx : String → String → Bool)
    (hltNames l1tNames : List String) (inputs later : List TriggerAnalyzer.Input) :
    (TriggerAnalyzer.run rx (TriggerAnalyzer.State.init hltNames l1tNames) inputs).fault
        ≠ some Fault.outOfRange
    ∧ ((TriggerAnalyzer.run rx (TriggerAnalyzer.State.init hltNames l1tNames) inputs).state.hltNamesInMenu_ = []
        ∨ (TriggerAnalyzer.run rx (TriggerAnalyzer.State.init hltNames l1tNames) inputs).state.hltInfo_.length
          = (TriggerAnalyzer.run rx (TriggerAnalyzer.State.init hltNames l1tNames) inputs).state.hltNames_.length)
    ∧ ((TriggerAnalyzer.run rx (TriggerAnalyzer.State.init hltNames l1tNames) inputs).state.l1TriggersInMenu_ = []
        ∨ (TriggerAnalyzer.run rx (TriggerAnalyzer.State.init hltNames l1tNames) inputs).state.l1tInfo_.length
          = (TriggerAnalyzer.run rx (TriggerAnalyzer.State.init hltNames l1tNames) inputs).state.l1tNames_.length)
    ∧ ((TriggerAnalyzer.run rx (TriggerAnalyzer.State.init hltNames l1tNames) inputs).state.hltInfo_ ≠ [] →
        (TriggerAnalyzer.run rx
            (TriggerAnalyzer.run rx (TriggerAnalyzer.State.init hltNames l1tNames) inputs).state
            later).state.hltInfo_.length
          = (TriggerAnalyzer.run rx (TriggerAnalyzer.State.init hltNames l1tNames) inputs).state.hltInfo_.length
        ∧ (TriggerAnalyzer.run rx
            (TriggerAnalyzer.run rx (TriggerAnalyzer.State.init hltNames l1tNames) inputs).state
            later).state.hltNames_
          = (TriggerAnalyzer.run rx (TriggerAnalyzer.State.init hltNames l1tNames) inputs).state.hltNames_)
    ∧ ((TriggerAnalyzer.run rx (TriggerAnalyzer.State.init hltNames l1tNames) inputs).state.l1tInfo_ ≠ [] →
        (TriggerAnalyzer.run rx
            (TriggerAnalyzer.run rx (TriggerAnalyzer.State.init hltNames l1tNames) inputs).state
            later).state.l1tInfo_.length
          = (TriggerAnalyzer.run rx (TriggerAnalyzer.State.init hltNames l1tNames) inputs).state.l1tInfo_.length
        ∧ (TriggerAnalyzer.run rx
            (TriggerAnalyzer.run rx (TriggerAnalyzer.State.init hltNames l1tNames) inputs).state
            later).state.l1tNames_
          = (TriggerAnalyzer.run rx (TriggerAnalyzer.State.init hltNames l1tNames) inputs).state.l1tNames_) := by
  obtain ⟨hinv, hf⟩ :=
    TriggerAnalyzer.run_inv rx inputs _ (TriggerAnalyzer.init_inv hltNames l1tNames)
  have hk := TriggerAnalyzer.run_keeps rx later _ hinv
  refine ⟨hf, ?_, ?_, hk.1, hk.2⟩
  · rcases hinv.1 with h | ⟨-, h⟩
    · exact Or.inr h
    · exact Or.inl h
  · rcases hinv.2 with h | ⟨-, h⟩
    · exact Or.inr h
    · exact Or.inl h

/-- C10 at a concrete input: after a rebuild with wildcard expansion and an event, the
record vector of the HLT tier is non-empty, and a rebuild against a different menu followed
by an event leaves its length and the template list as they were. -/
theorem C10_record_writes_in_bounds_witness :
    (TriggerAnalyzer.run Examples.substringRx
        (TriggerAnalyzer.run Examples.substringRx (TriggerAnalyzer.State.init ["@ALL"] ["@ALL"])
          [.runStart (Examples.runChangedA Examples.menuMu20), .event Examples.evAllFired]).state
        [.runStart (Examples.runChangedA Examples.menuTwoVersions),
          .event Examples.evAllFired]).state.hltNames_
      = ["HLT_Mu20_v"] :=
  ((C10_record_writes_in_bounds Examples.substringRx ["@ALL"] ["@ALL"]
      [.runStart (Examples.runChangedA Examples.menuMu20), .event Examples.evAllFired]
      [.runStart (Examples.runChangedA Examples.menuTwoVersions),
        .event Examples.evAllFired]).2.2.2.1 (by decide)).2.trans (by decide)

end HLTBitAna
